import Mathlib

/-!
Shallow embedding of the `@intouchg/theme` compilation core.

The repository contains several near-duplicate snapshots of the same evolving
module.  Each snapshot is embedded in its own namespace:

* `ProcessorV1` — src/src/processor.ts, first snapshot (lines 1-160):
  `themeProcessor(values, variants)` with the `values.length` guard,
  the lenient `assignThemeValue`, and `createThemeValue` without groups.
* `ProcessorV2` — src/src/processor.ts, second snapshot (lines 160-385):
  contributes `findThemeValue` (the UUID-shape passthrough logic); the same
  logic is inlined verbatim in src/src/config.ts lines 136-149.
* `ConfigV2` — src/src/config.ts, second snapshot (lines 55-231):
  `themeProcessor(values, variants)` with every output bucket pre-initialized
  and the strict `assignThemeValue`.
* `SchemaV2` — src/src/schema.ts, second snapshot (lines 336-523):
  `themeProcessor(values, groups, components)` with the group pass, plus the
  group-scoped `createThemeValue`; its schema tables come from part_002
  (`./themeSpec`).
* `Part003` — src/unnamed/part_003: `themeProcessor(values, components,
  variants)`; its schema tables come from src/src/schema.ts first snapshot.

JavaScript runtime objects are modelled by `JsVal` (a string, an array that
may also carry named properties, or a plain object); theme objects are
ordered association lists with JS property-assignment semantics (updating an
existing key keeps its position, a new key is appended).
-/

namespace ITheme

/-- A JavaScript runtime value as it occurs inside a compiled theme:
a string, an array (which, in JS, may additionally carry named properties),
or a plain object mapping names to values. -/
inductive JsVal where
  | str : String → JsVal
  | arr : List JsVal → List (String × JsVal) → JsVal
  | obj : List (String × JsVal) → JsVal
deriving Repr

/-- A JS object: an insertion-ordered association list. -/
abbrev JsObject := List (String × JsVal)

/-- `object[key]` — first (and only) binding of `key`. -/
def getKey : JsObject → String → Option JsVal
  | [], _ => none
  | p :: rest, key => if p.1 = key then some p.2 else getKey rest key

/-- `object[key] = v` — JS property write: an existing key is updated in
place (its position is kept), a new key is appended. -/
def setKey (object : JsObject) (key : String) (v : JsVal) : JsObject :=
  match object with
  | [] => [(key, v)]
  | p :: rest =>
    if p.1 = key then (key, v) :: rest else p :: setKey rest key v

/-- JS truthiness of a `JsVal`: arrays and objects are always truthy
(even empty ones); only the empty string is falsy. -/
def jsTruthy : JsVal → Bool
  | .str s => s ≠ ""
  | .arr _ _ => true
  | .obj _ => true

/-- `Array.isArray`. -/
def isArray : JsVal → Bool
  | .arr _ _ => true
  | _ => false

/-- `object[key][name] = value` where `object[key]` is already known:
on an object it sets the property; on an array it attaches the property to
the array (JS arrays accept named properties — no error); on a primitive
string the write is silently lost (non-strict mode). -/
def setProp (b : JsVal) (name : String) (v : JsVal) : JsVal :=
  match b with
  | .obj props => .obj (setKey props name v)
  | .arr elems props => .arr elems (setKey props name v)
  | .str s => .str s

/-- `object[key].push(value)` for an array bucket; anything else is
returned unchanged (only ever applied under an `isArray` guard). -/
def pushElem (b : JsVal) (v : JsVal) : JsVal :=
  match b with
  | .arr elems props => .arr (elems ++ [v]) props
  | b => b

/-- One of the ~16 token kinds (`ThemeValue['type']`).  `grid` exists only
in the part_002 lineage of the kind union. -/
inductive ThemeValueType where
  | breakpoint | space | size | color | font | fontSize | fontWeight
  | lineHeight | letterSpacing | border | borderStyle | borderWidth
  | radius | shadow | zIndex | grid
deriving DecidableEq, Repr

/-- The string literal of each kind tag, as interpolated into error
messages (`${groupType}`). -/
def kindName : ThemeValueType → String
  | .breakpoint => "breakpoint"
  | .space => "space"
  | .size => "size"
  | .color => "color"
  | .font => "font"
  | .fontSize => "fontSize"
  | .fontWeight => "fontWeight"
  | .lineHeight => "lineHeight"
  | .letterSpacing => "letterSpacing"
  | .border => "border"
  | .borderStyle => "borderStyle"
  | .borderWidth => "borderWidth"
  | .radius => "radius"
  | .shadow => "shadow"
  | .zIndex => "zIndex"
  | .grid => "grid"

/-- A component kind (`componentNames` of src/src/schema.ts, first
snapshot). -/
inductive ComponentName where
  | button | text | heading | label | link | icon | input
deriving DecidableEq, Repr

/-- The string literal of a component kind, as interpolated into error
messages (`${variantType}`). -/
def componentKindName : ComponentName → String
  | .button => "button"
  | .text => "text"
  | .heading => "heading"
  | .label => "label"
  | .link => "link"
  | .icon => "icon"
  | .input => "input"

/-- `componentVariantsPropertyMap` of src/src/schema.ts (first snapshot),
mapping a component kind to its output bucket name. -/
def componentVariantsPropertyMap : ComponentName → String
  | .button => "buttons"
  | .text => "texts"
  | .heading => "headings"
  | .label => "labels"
  | .link => "links"
  | .icon => "icons"
  | .input => "inputs"

/-- `Object.values(componentVariantsPropertyMap)` in declaration order. -/
def componentNamesOrder : List ComponentName :=
  [.button, .text, .heading, .label, .link, .icon, .input]

/-- The entries of `themeTypePropertyMap` (src/src/schema.ts first
snapshot, lines 145-161), in declaration order.  This lineage has no
`grid` entry. -/
def themeTypePropertyMapEntries : List (ThemeValueType × String) :=
  [(.breakpoint, "breakpoints"), (.space, "space"), (.size, "sizes"),
   (.color, "colors"), (.font, "fonts"), (.fontSize, "fontSizes"),
   (.fontWeight, "fontWeights"), (.lineHeight, "lineHeights"),
   (.letterSpacing, "letterSpacings"), (.border, "borders"),
   (.borderStyle, "borderStyles"), (.borderWidth, "borderWidths"),
   (.radius, "radii"), (.shadow, "shadows"), (.zIndex, "zIndices")]

/-- `themeTypePropertyMap[type]` (schema.ts first snapshot).  For a kind
absent from the table (only `grid`) the JS lookup yields `undefined`, and
indexing the theme with it uses the coerced property key "undefined". -/
def themeTypePropertyMap (t : ThemeValueType) : String :=
  (((themeTypePropertyMapEntries.find? (fun e => e.1 = t)).map
    (fun e => e.2))).getD "undefined"

/-- The entries of `themeTypePropertyMap` of src/unnamed/part_002
(lines 149-166): same as the schema.ts table plus a final `grid` entry. -/
def themeTypePropertyMapBEntries : List (ThemeValueType × String) :=
  themeTypePropertyMapEntries ++ [(.grid, "grid")]

/-- `themeTypePropertyMap[type]`, part_002 lineage. -/
def themeTypePropertyMapB (t : ThemeValueType) : String :=
  (((themeTypePropertyMapBEntries.find? (fun e => e.1 = t)).map
    (fun e => e.2))).getD "undefined"

/-- `themeSpec` of src/src/schema.ts (first snapshot, lines 55-138):
output bucket name → declared style properties, in declaration order
(`customThemeProps.colors` spliced into `colors`). -/
def themeSpec : List (String × List String) :=
  [("breakpoints", []),
   ("space",
     ["top", "right", "bottom", "left",
      "margin", "m", "marginTop", "mt", "marginRight", "mr",
      "marginBottom", "mb", "marginLeft", "ml", "marginX", "mx",
      "marginY", "my",
      "padding", "p", "paddingTop", "pt", "paddingRight", "pr",
      "paddingBottom", "pb", "paddingLeft", "pl", "paddingX", "px",
      "paddingY", "py",
      "gridGap", "gridColumnGap", "gridRowGap"]),
   ("fontSizes", ["fontSize"]),
   ("fonts", ["fontFamily"]),
   ("fontWeights", ["fontWeight"]),
   ("lineHeights", ["lineHeight"]),
   ("letterSpacings", ["letterSpacing"]),
   ("colors",
     ["color", "bg", "backgroundColor",
      "borderColor", "borderTopColor", "borderRightColor",
      "borderBottomColor", "borderLeftColor",
      "hoverColor", "hoverBackgroundColor", "hoverBorderColor",
      "activeColor", "activeBackgroundColor", "activeBorderColor",
      "visitedColor", "visitedBackgroundColor", "visitedBorderColor",
      "fill"]),
   ("sizes",
     ["width", "height", "minWidth", "minHeight", "maxWidth", "maxHeight",
      "size"]),
   ("borders",
     ["border", "borderTop", "borderRight", "borderBottom", "borderLeft",
      "borderX", "borderY"]),
   ("borderWidths",
     ["borderWidth", "borderTopWidth", "borderRightWidth",
      "borderBottomWidth", "borderLeftWidth"]),
   ("borderStyles",
     ["borderStyle", "borderTopStyle", "borderRightStyle",
      "borderBottomStyle", "borderLeftStyle"]),
   ("radii",
     ["borderRadius", "borderTopLeftRadius", "borderTopRightRadius",
      "borderBottomLeftRadius", "borderBottomRightRadius"]),
   ("shadows", ["textShadow", "boxShadow"]),
   ("zIndices", ["zIndex"])]

/-- `getThemePropertyByStyleProperty` (schema.ts-first-snapshot table):
first bucket whose declared style-property list contains the input. -/
def getThemePropertyByStyleProperty (styleProperty : String) : Option String :=
  (themeSpec.find? (fun e => e.2.contains styleProperty)).map (fun e => e.1)

/-- A runtime `ThemeValue` record.  `name` is an `Option` because only some
kinds carry a name; `groups` (group ids, color tokens in the part_002
lineage) is modelled with `[]` for "absent", which is observationally
equivalent in every use site (`hasOwnProperty('groups')` is only ever
combined with emptiness/`some` checks). -/
structure ThemeValue where
  id : String
  type : ThemeValueType
  name : Option String
  value : String
  groups : List String
deriving DecidableEq, Repr

/-- A `ThemeGroup` record (part_002 lineage). -/
structure ThemeGroup where
  id : String
  groupType : ThemeValueType
  name : String
  members : List String
deriving DecidableEq, Repr

/-- A `ThemeComponent` record: component name plus
`styleProperty → token id` entries in declaration order. -/
structure ThemeComponent where
  name : String
  styles : List (String × String)
deriving DecidableEq, Repr

/-- A variant style value: a single string or an array of strings
(`ThemeValue['id'] | ThemeValue['id'][]`, where a non-id literal may also
appear at runtime). -/
inductive StyleVal where
  | s : String → StyleVal
  | arr : List String → StyleVal
deriving DecidableEq, Repr

/-- A `ThemeVariant` record. -/
structure ThemeVariant where
  variantType : ComponentName
  name : String
  styles : List (String × StyleVal)
deriving DecidableEq, Repr

/-- The `{ id, name?, value }` argument destructured by
`assignThemeValue`. -/
structure AssignData where
  id : String
  name : Option String
  value : JsVal
deriving Repr

/-- The error text thrown by every `assignThemeValue` snapshot. -/
def cannotAssignMsg (id key : String) : String :=
  "Cannot assign ThemeValue with id \"" ++ id ++ "\" to theme property \"" ++
    key ++ "\", because the ThemeValue does not have a \"name\" property"

/-- `assignThemeValue` as it appears verbatim in src/src/processor.ts
lines 11-27, src/src/schema.ts lines 346-362 and src/unnamed/part_003
lines 11-27: a named value is set under its name (creating the bucket as an
object if it is absent or falsy); an unnamed value is pushed onto the
bucket if it is absent, falsy or an array, and otherwise throws. -/
def assignThemeValue (object : JsObject) (key : String) (data : AssignData) :
    Except String JsObject :=
  match data.name with
  | some name =>
    match getKey object key with
    | some b =>
      if jsTruthy b then .ok (setKey object key (setProp b name data.value))
      else .ok (setKey object key (.obj [(name, data.value)]))
    | none => .ok (setKey object key (.obj [(name, data.value)]))
  | none =>
    match getKey object key with
    | some b =>
      if jsTruthy b then
        if isArray b then .ok (setKey object key (pushElem b data.value))
        else .error (cannotAssignMsg data.id key)
      else .ok (setKey object key (.arr [data.value] []))
    | none => .ok (setKey object key (.arr [data.value] []))

/-- `assignThemeValue` as it appears verbatim in src/src/processor.ts
lines 170-185 and src/src/config.ts lines 65-80: the named branch is the
same, but an unnamed value requires `Array.isArray(object[key])` — a
missing bucket also throws. -/
def assignThemeValueStrict (object : JsObject) (key : String)
    (data : AssignData) : Except String JsObject :=
  match data.name with
  | some name =>
    match getKey object key with
    | some b =>
      if jsTruthy b then .ok (setKey object key (setProp b name data.value))
      else .ok (setKey object key (.obj [(name, data.value)]))
    | none => .ok (setKey object key (.obj [(name, data.value)]))
  | none =>
    match getKey object key with
    | some (.arr elems props) =>
      .ok (setKey object key (.arr (elems ++ [data.value]) props))
    | _ => .error (cannotAssignMsg data.id key)

/-- `assignThemeValue(theme[themeProperty]!, key, data)`: the object being
mutated is a nested bucket rather than the top-level theme.  On a JS
object this is the ordinary property logic over its properties; on an
array the array's named properties act as the backing object; on a
primitive string every write is silently lost. -/
def assignIntoBucket (b : JsVal) (key : String) (data : AssignData) :
    Except String JsVal :=
  match b with
  | .obj props => (assignThemeValue props key data).map JsVal.obj
  | .arr elems props => (assignThemeValue props key data).map (JsVal.arr elems)
  | .str s => .ok (.str s)

/-- `assignIntoBucket` for the strict `assignThemeValue` snapshot. -/
def assignIntoBucketStrict (b : JsVal) (key : String) (data : AssignData) :
    Except String JsVal :=
  match b with
  | .obj props => (assignThemeValueStrict props key data).map JsVal.obj
  | .arr elems props =>
    (assignThemeValueStrict props key data).map (JsVal.arr elems)
  | .str s => .ok (.str s)

/-- Structural decimal parsing (kernel-reducible, unlike
`String.toNat?`). -/
def digitsVal (acc : Nat) : List Char → Option Nat
  | [] => some acc
  | c :: cs =>
    if c.isDigit then digitsVal (10 * acc + (c.toNat - 48)) cs else none

/-- JS numeric coercion of a value, as far as the comparator
`(a, b) => a - b` needs it: the empty string is 0, an integer-shaped
string is its number, everything else is treated as NaN (`none`).  (The
comparator is never reached on any input appearing in this development:
token values are strings, so no bucket member is an array.) -/
def jsToNumber : JsVal → Option Int
  | .str s =>
    match s.data with
    | [] => some 0
    | c :: cs =>
      if c = '-' then (digitsVal 0 cs).map (fun x => -(x : Int))
      else (digitsVal 0 (c :: cs)).map (fun x => (x : Int))
  | _ => none

/-- `a - b < 0` under the comparator of `sort((a, b) => a - b)`; a NaN
comparison makes `SortCompare` return +0, i.e. "not less". -/
def jsLt (a b : JsVal) : Bool :=
  match jsToNumber a, jsToNumber b with
  | some x, some y => x < y
  | _, _ => false

/-- Stable insertion used to model in-place `Array.prototype.sort` with the
numeric-ascending comparator. -/
def insertAsc (x : JsVal) : List JsVal → List JsVal
  | [] => [x]
  | y :: ys => if jsLt x y then x :: y :: ys else y :: insertAsc x ys

/-- `value.sort((a, b) => a - b)` on an array's elements (named properties
are untouched by `sort`). -/
def insertionSortJs (l : List JsVal) : List JsVal :=
  l.foldl (fun acc x => insertAsc x acc) []

/-- `Array.isArray(value) && value.sort((a, b) => a - b)` applied to one
member of `Object.values(property)`. -/
def sortIfArray (v : JsVal) : JsVal :=
  match v with
  | .arr elems props => .arr (insertionSortJs elems) props
  | v => v

/-- The pure residue of
`sortThemeValuesAscending(Object.values(property))`: each member of the
bucket (element or named property value) that is itself an array is sorted
in place.  The bucket's own element order is NOT touched — `Object.values`
peels one level before the `Array.isArray` test. -/
def sortBucketContents (b : JsVal) : JsVal :=
  match b with
  | .obj props => .obj (props.map (fun p => (p.1, sortIfArray p.2)))
  | .arr elems props =>
    .arr (elems.map sortIfArray) (props.map (fun p => (p.1, sortIfArray p.2)))
  | .str s => .str s

/-- `Object.values(theme).forEach(property => property &&
sortThemeValuesAscending(Object.values(property)))`. -/
def sortThemeValuesAscendingPass (theme : JsObject) : JsObject :=
  theme.map (fun p => (p.1, if jsTruthy p.2 then sortBucketContents p.2 else p.2))

/-- Sequential `forEach` over a list of items threading the theme object,
aborting on the first thrown error. -/
def forEachE {α : Type} (f : JsObject → α → Except String JsObject) :
    JsObject → List α → Except String JsObject
  | t, [] => .ok t
  | t, x :: xs =>
    match f t x with
    | .error e => .error e
    | .ok t2 => forEachE f t2 xs

/-- `props.id || createUuid()`: JS `||` falls through on the empty
string. -/
def jsOrString (o : Option String) (dflt : String) : String :=
  match o with
  | some s => if s = "" then dflt else s
  | none => dflt

/-- Modelled from the spec: `makeAvailableName` is imported from the
external package `@i/utility`, whose source is not part of this
repository.  §4.2's shared name-collision contract: return the desired
name unchanged if it is absent from the unavailable set; otherwise return
`"{desiredName} {n}"` for the smallest integer `n ≥ 2` such that the
candidate is absent.  (The bounded search below always succeeds: among
`unavailableNames.length + 1` candidates at least one is free; the
fallback branch is unreachable.) -/
def makeAvailableName (desired : String) (unavailableNames : List String) :
    String :=
  if unavailableNames.contains desired then
    match (List.range (unavailableNames.length + 1)).find?
        (fun k => ! unavailableNames.contains
          (desired ++ " " ++ toString (k + 2))) with
    | some k => desired ++ " " ++ toString (k + 2)
    | none => desired ++ " " ++ toString (unavailableNames.length + 2)
  else desired

/-- A hexadecimal digit. -/
def isHexChar (c : Char) : Bool :=
  c.isDigit || ("a".front ≤ c && c ≤ "f".front) ||
    ("A".front ≤ c && c ≤ "F".front)

/-- Split a character list on the hyphen character. -/
def splitDash : List Char → List (List Char)
  | [] => [[]]
  | c :: cs =>
    if c = '-' then [] :: splitDash cs
    else
      match splitDash cs with
      | [] => [[c]]
      | g :: gs => (c :: g) :: gs

/-- Modelled from the spec: `UUID_REGEX` is imported from `@i/utility`
(not in this repository).  Per §9 and the glossary, a string matches the
id-shape pattern iff it is a hexadecimal UUID: five hyphen-separated runs
of lengths 8, 4, 4, 4 and 12. -/
def UUID_REGEX_test (s : String) : Bool :=
  match splitDash s.data with
  | [a, b, c, d, e] =>
    a.length == 8 && b.length == 4 && c.length == 4 && d.length == 4 &&
      e.length == 12 && (a ++ b ++ c ++ d ++ e).all isHexChar
  | _ => false

/-- Does `cs` start with `sub`? -/
def charsStartWith : List Char → List Char → Bool
  | _, [] => true
  | [], _ :: _ => false
  | c :: cs, d :: ds => c = d && charsStartWith cs ds

/-- Does `cs` contain `sub` as a contiguous run? -/
def charsContain : List Char → List Char → Bool
  | [], sub => sub.isEmpty
  | c :: cs, sub => charsStartWith (c :: cs) sub || charsContain cs sub

/-- The error text of the dangling variant-reference throw
(processor.ts lines 209-214 `findThemeValueError`; the identical template
literal appears inline in processor.ts line 64, config.ts lines 140 and
146, and part_003 line 81). -/
def findThemeValueError (valueId styleProperty variantName variantType :
    String) : String :=
  "Could not find ThemeValue with id \"" ++ valueId ++
    "\" for StyleProperty \"" ++ styleProperty ++ "\" in ThemeVariant \"" ++
    variantName ++ "\" for variants type \"" ++ variantType ++ "\""

/-- `values.find(value => value.id === themeValueId)` where the style
entry may be a string or an array: an array operand never strictly equals
a string id. -/
def findValueByStyleVal (values : List ThemeValue) (sv : StyleVal) :
    Option ThemeValue :=
  match sv with
  | .s s => values.find? (fun v => v.id = s)
  | .arr _ => none

/-- Template-literal coercion `${styleValue}` of a style value (an array
is joined with commas). -/
def styleValToString : StyleVal → String
  | .s s => s
  | .arr xs => String.intercalate "," xs

/-- `if (!theme[themeProperty]) theme[themeProperty] = {}` followed by
reading `theme[themeProperty]!`. -/
def bucketForAssign (theme : JsObject) (key : String) : JsVal :=
  match getKey theme key with
  | some b => if jsTruthy b then b else JsVal.obj []
  | none => JsVal.obj []

namespace ProcessorV1

/-- One iteration of `values.forEach` in themeProcessor
(processor.ts lines 51-54). -/
def valueStep (theme : JsObject) (value : ThemeValue) :
    Except String JsObject :=
  assignThemeValue theme (themeTypePropertyMap value.type)
    ⟨value.id, value.name, JsVal.str value.value⟩

/-- One `Object.entries(styles)` iteration of the variants pass
(processor.ts lines 60-67). -/
def variantStyleStep (values : List ThemeValue) (variantType : ComponentName)
    (variantName : String) (theme : JsObject) (entry : String × StyleVal) :
    Except String JsObject :=
  if entry.2 = StyleVal.s "" then .ok theme
  else
    match findValueByStyleVal values entry.2 with
    | none =>
      .error (findThemeValueError (styleValToString entry.2) entry.1
        variantName (componentKindName variantType))
    | some themeValue =>
      match assignIntoBucket
          (bucketForAssign theme (componentVariantsPropertyMap variantType))
          variantName
          ⟨"VARIANT_STYLE", some entry.1, JsVal.str themeValue.value⟩ with
      | .error e => .error e
      | .ok b =>
        .ok (setKey theme (componentVariantsPropertyMap variantType) b)

/-- One iteration of `variants.forEach` (processor.ts lines 59-68). -/
def variantStep (values : List ThemeValue) (theme : JsObject)
    (variant : ThemeVariant) : Except String JsObject :=
  forEachE (variantStyleStep values variant.variantType variant.name) theme
    variant.styles

/-- `themeProcessor` of src/src/processor.ts, first snapshot
(lines 40-72). -/
def themeProcessor (values : List ThemeValue) (variants : List ThemeVariant) :
    Except String JsObject :=
  if values.length == 0 then
    .error "ThemeValues were not passed to the themeProcessor"
  else
    match forEachE valueStep [] values with
    | .error e => .error e
    | .ok t1 =>
      match forEachE (variantStep values) (sortThemeValuesAscendingPass t1)
          variants with
      | .error e => .error e
      | .ok t2 => .ok t2

/-- The `name` component of `themeValueInitialDefaults`
(processor.ts lines 74-90). -/
def defaultName : ThemeValueType → Option String
  | .size => some "New Size"
  | .color => some "New Color"
  | .font => some "New Font"
  | .fontWeight => some "New Font Weight"
  | .border => some "New Border"
  | .borderStyle => some "New Border Style"
  | .borderWidth => some "New Border Width"
  | .radius => some "New Radius"
  | .shadow => some "New Shadow"
  | _ => none

/-- The `value` component of `themeValueInitialDefaults`
(processor.ts lines 74-90); `color` draws from `randomHexColor()`, passed
in as `freshColor`.  (The `font` default also sets `family`/`typeface`
fields; no code reachable from the claims reads them, so they are not
carried in the record.  `grid` is absent from this snapshot's kind union
and from the defaults table, so its row is unreachable.) -/
def defaultValue (freshColor : String) : ThemeValueType → String
  | .breakpoint => "60em"
  | .size => "60px"
  | .space => "32px"
  | .color => freshColor
  | .font => "Georgia, serif"
  | .fontSize => "1rem"
  | .fontWeight => "600"
  | .lineHeight => "1rem"
  | .letterSpacing => "1px"
  | .border => "2px solid black"
  | .borderStyle => "solid"
  | .borderWidth => "2px"
  | .radius => "8px"
  | .shadow => "0px 1px 3px rgba(0, 0, 0, 0.12)"
  | .zIndex => "10"
  | .grid => ""

end ProcessorV1

/-- The overridable fields of `Partial<ThemeValue>` as consumed by
`createThemeValue`: each field is present (`some`) or absent. -/
structure ThemeValueProps where
  id : Option String
  type : Option ThemeValueType
  name : Option String
  value : Option String
  groups : Option (List String)
deriving Repr

/-- `props` with every field absent (the `= {}` default argument). -/
def ThemeValueProps.empty : ThemeValueProps := ⟨none, none, none, none, none⟩

/-- The tail of every `createThemeValue` snapshot: if the merged record
has a `name`, replace it by `makeAvailableName(name, unavailableNames)`. -/
def finishName (merged : ThemeValue) (unavailableNames : List String) :
    ThemeValue :=
  match merged.name with
  | none => merged
  | some desired =>
    { merged with name := some (makeAvailableName desired unavailableNames) }

namespace ProcessorV1

/-- The `unavailableNames` loop of this snapshot (processor.ts
lines 112-121): the names of ALL existing same-kind named tokens —
groups play no role here. -/
def unavailableNamesOf (themeValues : List ThemeValue)
    (type : ThemeValueType) : List String :=
  themeValues.filterMap (fun v =>
    match v.name with
    | none => none
    | some nm => if v.type = type then some nm else none)

/-- `createThemeValue` of src/src/processor.ts, first snapshot
(lines 100-126): spread of `{ id: props.id || createUuid(),
...themeValueInitialDefaults[type](), ...props, type }` — the trailing
`type` key always wins over `props.type` — followed by name-collision
avoidance against ALL same-kind named tokens (this snapshot has no group
scoping).  Identifier and color entropy are passed in as `freshId` and
`freshColor`. -/
def createThemeValue (freshId freshColor : String)
    (themeValues : List ThemeValue) (type : ThemeValueType)
    (props : ThemeValueProps) : ThemeValue :=
  let merged : ThemeValue :=
    ⟨jsOrString props.id freshId, type,
     (props.name).orElse (fun _ => defaultName type),
     (props.value).getD (defaultValue freshColor type),
     (props.groups).getD []⟩
  finishName merged (unavailableNamesOf themeValues type)

end ProcessorV1

/-- A variant style value of the processor.ts second snapshot: a string,
an array of strings, or a nested `ThemeStyleObject` mapping style
properties to strings or arrays of strings. -/
inductive StyleValV2 where
  | s : String → StyleValV2
  | arr : List String → StyleValV2
  | obj : List (String × StyleVal) → StyleValV2
deriving DecidableEq, Repr

/-- A `ThemeVariant` record of the processor.ts second snapshot (its
styles may carry nested style objects). -/
structure ThemeVariantV2 where
  variantType : ComponentName
  name : String
  styles : List (String × StyleValV2)
deriving DecidableEq, Repr

namespace ProcessorV2

/-- `findThemeValue` of src/src/processor.ts, second snapshot
(lines 216-235); the identical logic is inlined in src/src/config.ts
lines 136-149.  Each string is first looked up as a token id; an element
with no matching token throws iff it matches the UUID shape, and is
passed through as a literal otherwise. -/
def findThemeValue (styleValue : StyleVal) (values : List ThemeValue)
    (styleProperty variantName variantType : String) :
    Except String JsVal :=
  match styleValue with
  | .s s =>
    match values.find? (fun v => v.id = s) with
    | some themeValue => .ok (.str themeValue.value)
    | none =>
      if UUID_REGEX_test s then
        .error (findThemeValueError s styleProperty variantName variantType)
      else .ok (.str s)
  | .arr xs =>
    match xs.mapM (fun str =>
      match values.find? (fun v => v.id = str) with
      | some themeValue => Except.ok themeValue.value
      | none =>
        if UUID_REGEX_test str then
          Except.error
            (findThemeValueError str styleProperty variantName variantType)
        else Except.ok str) with
    | .error e => .error e
    | .ok vals => .ok (.arr (vals.map JsVal.str) [])

/-- The hard-coded pre-initialized theme of src/src/processor.ts, second
snapshot (lines 251-281).  Note `fontWeights` is a LIST bucket in this
snapshot. -/
def initialTheme : JsObject :=
  [("breakpoints", JsVal.arr [] []),
   ("space", JsVal.arr [JsVal.str "0"] []),
   ("colors", JsVal.obj []),
   ("fonts", JsVal.obj []),
   ("fontSizes", JsVal.arr [JsVal.str "0"] []),
   ("fontWeights", JsVal.arr [JsVal.str "0"] []),
   ("lineHeights", JsVal.arr [JsVal.str "0"] []),
   ("letterSpacings", JsVal.arr [JsVal.str "0"] []),
   ("borderWidths", JsVal.arr [JsVal.str "0"] []),
   ("borderStyles", JsVal.arr [JsVal.str "none", JsVal.str "solid"] []),
   ("borders", JsVal.obj []),
   ("shadows", JsVal.obj []),
   ("radii", JsVal.arr [JsVal.str "0"] []),
   ("zIndices", JsVal.arr [JsVal.str "0"] []),
   ("sizes", JsVal.arr [JsVal.str "0"] []),
   ("buttons", JsVal.obj []),
   ("texts", JsVal.obj []),
   ("headings", JsVal.obj []),
   ("links", JsVal.obj []),
   ("icons", JsVal.obj []),
   ("labels", JsVal.obj []),
   ("inputs", JsVal.obj []),
   ("radios", JsVal.obj []),
   ("checkboxes", JsVal.obj []),
   ("selects", JsVal.obj []),
   ("sliders", JsVal.obj []),
   ("toggles", JsVal.obj []),
   ("textareas", JsVal.obj [])]

/-- One iteration of `values.forEach` (processor.ts line 283), using the
strict `assignThemeValue` of this snapshot. -/
def valueStep (theme : JsObject) (value : ThemeValue) :
    Except String JsObject :=
  assignThemeValueStrict theme (themeTypePropertyMap value.type)
    ⟨value.id, value.name, JsVal.str value.value⟩

/-- `if (!styleValue) return`: among string, array and object style
values only the empty string is falsy. -/
def styleValueFalsy : StyleValV2 → Bool
  | .s s => s = ""
  | _ => false

/-- Resolution of one variant style value (processor.ts lines 293-303):
strings and arrays go straight through `findThemeValue`; a nested style
object is rebuilt property by property, each inner value resolved by
`findThemeValue` (the first failed resolution aborts). -/
def resolveStyleValue (values : List ThemeValue) (variantName : String)
    (variantType : ComponentName) (styleProperty : String) :
    StyleValV2 → Except String JsVal
  | .s s =>
    findThemeValue (StyleVal.s s) values styleProperty variantName
      (componentKindName variantType)
  | .arr xs =>
    findThemeValue (StyleVal.arr xs) values styleProperty variantName
      (componentKindName variantType)
  | .obj entries =>
    (entries.foldlM (fun (acc : List (String × JsVal))
        (e : String × StyleVal) =>
      match findThemeValue e.2 values e.1 variantName
          (componentKindName variantType) with
      | .error er => Except.error er
      | .ok v => Except.ok (setKey acc e.1 v)) []).map JsVal.obj

/-- One `Object.entries(styles)` iteration of the variants pass
(processor.ts lines 291-309): falsy values are skipped; the resolved
value is assigned under the variant's name into the (pre-existing) bucket
of its `variantType` — `themeTargetReference` is a live reference to that
bucket, so reading it per entry is equivalent. -/
def variantStyleStep (values : List ThemeValue) (variantType : ComponentName)
    (variantName : String) (theme : JsObject) (entry : String × StyleValV2) :
    Except String JsObject :=
  if styleValueFalsy entry.2 then .ok theme
  else
    match resolveStyleValue values variantName variantType entry.1
        entry.2 with
    | .error e => .error e
    | .ok value =>
      match assignIntoBucketStrict
          ((getKey theme (componentVariantsPropertyMap variantType)).getD
            (JsVal.obj []))
          variantName ⟨"VARIANT_STYLE", some entry.1, value⟩ with
      | .error e => .error e
      | .ok b =>
        .ok (setKey theme (componentVariantsPropertyMap variantType) b)

/-- One iteration of `variants.forEach` (processor.ts lines 288-311). -/
def variantStep (values : List ThemeValue) (theme : JsObject)
    (variant : ThemeVariantV2) : Except String JsObject :=
  forEachE (variantStyleStep values variant.variantType variant.name) theme
    variant.styles

/-- `themeProcessor` of src/src/processor.ts, second snapshot
(lines 244-315).  Note: like the config.ts snapshot — and unlike the
first processor.ts snapshot — it has NO empty-`values` guard. -/
def themeProcessor (values : List ThemeValue)
    (variants : List ThemeVariantV2) : Except String JsObject :=
  match forEachE valueStep initialTheme values with
  | .error e => .error e
  | .ok t1 =>
    match forEachE (variantStep values) (sortThemeValuesAscendingPass t1)
        variants with
    | .error e => .error e
    | .ok t2 => .ok t2

end ProcessorV2

namespace ConfigV2

/-- Which kinds' `themeValueInitialDefaults` records carry a `name`
(config.ts lines 86-102): `color`, `font`, `border`, `shadow`.  (`grid` is
not in this snapshot's table; the iterated entries never reach it.) -/
def defaultHasName : ThemeValueType → Bool
  | .color => true
  | .font => true
  | .border => true
  | .shadow => true
  | _ => false

/-- The pre-initialized theme of config.ts lines 118-126: one empty
object/array per token kind (object iff that kind's default record has a
`name`), then one empty object per component/variant bucket. -/
def initialTheme : JsObject :=
  themeTypePropertyMapEntries.map (fun e =>
    (e.2, if defaultHasName e.1 then JsVal.obj [] else JsVal.arr [] []))
  ++ componentNamesOrder.map (fun c =>
    (componentVariantsPropertyMap c, JsVal.obj []))

/-- One iteration of `values.forEach` (config.ts line 128), using the
strict `assignThemeValue` of this snapshot. -/
def valueStep (theme : JsObject) (value : ThemeValue) :
    Except String JsObject :=
  assignThemeValueStrict theme (themeTypePropertyMap value.type)
    ⟨value.id, value.name, JsVal.str value.value⟩

/-- One `Object.entries(styles)` iteration of the variants pass
(config.ts lines 134-155): falsy style values (only the empty string
here) are skipped; otherwise resolve via the `findThemeValue` logic and
assign under the variant's name into the bucket of its `variantType`. -/
def variantStyleStep (values : List ThemeValue) (variantType : ComponentName)
    (variantName : String) (theme : JsObject) (entry : String × StyleVal) :
    Except String JsObject :=
  if entry.2 = StyleVal.s "" then .ok theme
  else
    match ProcessorV2.findThemeValue entry.2 values entry.1 variantName
        (componentKindName variantType) with
    | .error e => .error e
    | .ok value =>
      match assignIntoBucketStrict
          (bucketForAssign theme (componentVariantsPropertyMap variantType))
          variantName ⟨"VARIANT_STYLE", some entry.1, value⟩ with
      | .error e => .error e
      | .ok b =>
        .ok (setKey theme (componentVariantsPropertyMap variantType) b)

/-- One iteration of `variants.forEach` (config.ts lines 133-157). -/
def variantStep (values : List ThemeValue) (theme : JsObject)
    (variant : ThemeVariant) : Except String JsObject :=
  forEachE (variantStyleStep values variant.variantType variant.name) theme
    variant.styles

/-- `themeProcessor` of src/src/config.ts, second snapshot
(lines 111-161).  Note: this snapshot has NO empty-`values` guard. -/
def themeProcessor (values : List ThemeValue) (variants : List ThemeVariant) :
    Except String JsObject :=
  match forEachE valueStep initialTheme values with
  | .error e => .error e
  | .ok t1 =>
    match forEachE (variantStep values) (sortThemeValuesAscendingPass t1)
        variants with
    | .error e => .error e
    | .ok t2 => .ok t2

end ConfigV2

/-- `themeSpec` of src/unnamed/part_002 (lines 57-142): same as the
schema.ts table except that the three grid-gap properties live in their
own `grid` bucket (between `sizes` and `borders`) instead of `space`. -/
def themeSpecB : List (String × List String) :=
  [("breakpoints", []),
   ("space",
     ["top", "right", "bottom", "left",
      "margin", "m", "marginTop", "mt", "marginRight", "mr",
      "marginBottom", "mb", "marginLeft", "ml", "marginX", "mx",
      "marginY", "my",
      "padding", "p", "paddingTop", "pt", "paddingRight", "pr",
      "paddingBottom", "pb", "paddingLeft", "pl", "paddingX", "px",
      "paddingY", "py"]),
   ("fontSizes", ["fontSize"]),
   ("fonts", ["fontFamily"]),
   ("fontWeights", ["fontWeight"]),
   ("lineHeights", ["lineHeight"]),
   ("letterSpacings", ["letterSpacing"]),
   ("colors",
     ["color", "bg", "backgroundColor",
      "borderColor", "borderTopColor", "borderRightColor",
      "borderBottomColor", "borderLeftColor",
      "hoverColor", "hoverBackgroundColor", "hoverBorderColor",
      "activeColor", "activeBackgroundColor", "activeBorderColor",
      "visitedColor", "visitedBackgroundColor", "visitedBorderColor",
      "fill"]),
   ("sizes",
     ["width", "height", "minWidth", "minHeight", "maxWidth", "maxHeight",
      "size"]),
   ("grid", ["gridGap", "gridColumnGap", "gridRowGap"]),
   ("borders",
     ["border", "borderTop", "borderRight", "borderBottom", "borderLeft",
      "borderX", "borderY"]),
   ("borderWidths",
     ["borderWidth", "borderTopWidth", "borderRightWidth",
      "borderBottomWidth", "borderLeftWidth"]),
   ("borderStyles",
     ["borderStyle", "borderTopStyle", "borderRightStyle",
      "borderBottomStyle", "borderLeftStyle"]),
   ("radii",
     ["borderRadius", "borderTopLeftRadius", "borderTopRightRadius",
      "borderBottomLeftRadius", "borderBottomRightRadius"]),
   ("shadows", ["textShadow", "boxShadow"]),
   ("zIndices", ["zIndex"])]

/-- `getThemePropertyByStyleProperty` over the part_002 table
(schema.ts second snapshot, lines 340-344). -/
def getThemePropertyByStylePropertyB (styleProperty : String) :
    Option String :=
  (themeSpecB.find? (fun e => e.2.contains styleProperty)).map (fun e => e.1)

namespace SchemaV2

/-- The error text of the dangling group-member throw
(schema.ts line 394); note `${groupId}` is interpolated unquoted. -/
def groupDanglingMsg (memberId : String) (group : ThemeGroup) : String :=
  "Could not find ThemeValue with id \"" ++ memberId ++
    "\" for ThemeGroup \"" ++ kindName group.groupType ++ "." ++
    group.name ++ "\" with id " ++ group.id

/-- One `members.forEach` iteration of the group pass
(schema.ts lines 392-396): resolve the member id (throwing the dangling
error if absent) and merge the member token into the bucket of the
GROUP's type. -/
def groupMemberStep (values : List ThemeValue) (group : ThemeGroup)
    (theme : JsObject) (memberId : String) : Except String JsObject :=
  match values.find? (fun v => v.id = memberId) with
  | none => .error (groupDanglingMsg memberId group)
  | some member =>
    assignThemeValue theme (themeTypePropertyMapB group.groupType)
      ⟨member.id, member.name, JsVal.str member.value⟩

/-- One iteration of `groups.forEach` (schema.ts lines 390-397). -/
def groupStep (values : List ThemeValue) (theme : JsObject)
    (group : ThemeGroup) : Except String JsObject :=
  forEachE (groupMemberStep values group) theme group.members

/-- One iteration of `values.forEach` (schema.ts lines 400-403). -/
def valueStep (theme : JsObject) (value : ThemeValue) :
    Except String JsObject :=
  assignThemeValue theme (themeTypePropertyMapB value.type)
    ⟨value.id, value.name, JsVal.str value.value⟩

/-- The error texts of the component pass (schema.ts lines 412 and 414). -/
def componentUnknownPropMsg (styleProperty componentName : String) : String :=
  "Could not find matching ThemeProperty for StyleProperty \"" ++
    styleProperty ++ "\" in ThemeComponent \"" ++ componentName ++ "\""

/-- See `componentUnknownPropMsg`. -/
def componentDanglingMsg (valueId styleProperty componentName : String) :
    String :=
  "Could not find ThemeValue with id \"" ++ valueId ++
    "\" for StyleProperty \"" ++ styleProperty ++ "\" in ThemeComponent \"" ++
    componentName ++ "\""

/-- One `Object.entries(styles)` iteration of the component pass
(schema.ts lines 409-417): empty-string ids are skipped, the bucket is
resolved from the STYLE PROPERTY via the schema table, the token is
resolved by id, and its value is assigned under the component's name
nested inside that bucket. -/
def componentStyleStep (values : List ThemeValue) (componentName : String)
    (theme : JsObject) (entry : String × String) : Except String JsObject :=
  if entry.2 = "" then .ok theme
  else
    match getThemePropertyByStylePropertyB entry.1 with
    | none => .error (componentUnknownPropMsg entry.1 componentName)
    | some themeProperty =>
      match values.find? (fun v => v.id = entry.2) with
      | none => .error (componentDanglingMsg entry.2 entry.1 componentName)
      | some themeValue =>
        match assignIntoBucket (bucketForAssign theme themeProperty)
            componentName
            ⟨"COMPONENT_STYLE", some entry.1, JsVal.str themeValue.value⟩ with
        | .error e => .error e
        | .ok b => .ok (setKey theme themeProperty b)

/-- One iteration of `components.forEach` (schema.ts lines 408-418). -/
def componentStep (values : List ThemeValue) (theme : JsObject)
    (component : ThemeComponent) : Except String JsObject :=
  forEachE (componentStyleStep values component.name) theme component.styles

/-- `themeProcessor` of src/src/schema.ts, second snapshot
(lines 376-422): guard, group pass, flat-values pass, sort pass,
component pass. -/
def themeProcessor (values : List ThemeValue) (groups : List ThemeGroup)
    (components : List ThemeComponent) : Except String JsObject :=
  if values.length == 0 then
    .error "ThemeValues were not passed to the themeProcessor"
  else
    match forEachE (groupStep values) [] groups with
    | .error e => .error e
    | .ok t1 =>
      match forEachE valueStep t1 values with
      | .error e => .error e
      | .ok t2 =>
        match forEachE (componentStep values)
            (sortThemeValuesAscendingPass t2) components with
        | .error e => .error e
        | .ok t3 => .ok t3

/-- The `name` component of `THEME_VALUE_INITIAL_DEFAULTS`
(schema.ts lines 424-441). -/
def defaultName : ThemeValueType → Option String
  | .size => some "New Size"
  | .color => some "New Color"
  | .font => some "New Font"
  | .fontWeight => some "New Font Weight"
  | .border => some "New Border"
  | .borderStyle => some "New Border Style"
  | .borderWidth => some "New Border Width"
  | .radius => some "New Radius"
  | .shadow => some "New Shadow"
  | .grid => some "New Grid"
  | _ => none

/-- The `value` component of `THEME_VALUE_INITIAL_DEFAULTS`
(schema.ts lines 424-441); numeric defaults are modelled as their decimal
strings (no claim reads a default value). -/
def defaultValue (freshColor : String) : ThemeValueType → String
  | .breakpoint => "60em"
  | .size => "60px"
  | .space => "32"
  | .color => freshColor
  | .font => "Times"
  | .fontSize => "24"
  | .fontWeight => "600"
  | .lineHeight => "1"
  | .letterSpacing => "0"
  | .border => "2px solid black"
  | .borderStyle => "solid"
  | .borderWidth => "2px"
  | .radius => "8px"
  | .shadow =>
    "0 1px 3px rgba(0, 0, 0, 0.12), 0 1px 2px rgba(0, 0, 0, 0.24)"
  | .zIndex => "10"
  | .grid => ""

/-- The `groups` component of `THEME_VALUE_INITIAL_DEFAULTS`: only the
`color` default record carries a `groups` field (an empty list). -/
def defaultGroups : ThemeValueType → Option (List String)
  | .color => some []
  | _ => none

/-- The `unavailableNames` loop of this snapshot (schema.ts
lines 464-483): if the new record has groups, only same-kind named tokens
sharing at least one group id; otherwise all same-kind named tokens. -/
def unavailableNamesOf (themeValues : List ThemeValue)
    (type : ThemeValueType) (groups : List String) : List String :=
  themeValues.filterMap (fun v =>
    match v.name with
    | none => none
    | some nm =>
      if v.type = type then
        if groups.isEmpty then some nm
        else if v.groups.any (fun i => groups.contains i) then some nm
        else none
      else none)

/-- `createThemeValue` of src/src/schema.ts, second snapshot
(lines 452-489): the spread `{ id: props.id || createUuid(),
...THEME_VALUE_INITIAL_DEFAULTS[type](), ...props, type }` (the trailing
`type` key always wins over `props.type`), then group-scoped
name-collision avoidance: if the merged record has groups, only same-kind
named tokens sharing at least one group id are unavailable; otherwise all
same-kind named tokens are. -/
def createThemeValue (freshId freshColor : String)
    (themeValues : List ThemeValue) (type : ThemeValueType)
    (props : ThemeValueProps) : ThemeValue :=
  let merged : ThemeValue :=
    ⟨jsOrString props.id freshId, type,
     (props.name).orElse (fun _ => defaultName type),
     (props.value).getD (defaultValue freshColor type),
     ((props.groups).orElse (fun _ => defaultGroups type)).getD []⟩
  finishName merged (unavailableNamesOf themeValues type merged.groups)

end SchemaV2

namespace Part003

/-- One iteration of `values.forEach` in part_003's themeProcessor
(lines 54-57); this file imports the schema.ts-first-snapshot tables. -/
def valueStep (theme : JsObject) (value : ThemeValue) :
    Except String JsObject :=
  assignThemeValue theme (themeTypePropertyMap value.type)
    ⟨value.id, value.name, JsVal.str value.value⟩

/-- One `Object.entries(styles)` iteration of the component pass
(part_003 lines 63-71): identical to the schema.ts component pass but
over the schema.ts-first-snapshot `themeSpec` table. -/
def componentStyleStep (values : List ThemeValue) (componentName : String)
    (theme : JsObject) (entry : String × String) : Except String JsObject :=
  if entry.2 = "" then .ok theme
  else
    match getThemePropertyByStyleProperty entry.1 with
    | none => .error (SchemaV2.componentUnknownPropMsg entry.1 componentName)
    | some themeProperty =>
      match values.find? (fun v => v.id = entry.2) with
      | none =>
        .error (SchemaV2.componentDanglingMsg entry.2 entry.1 componentName)
      | some themeValue =>
        match assignIntoBucket (bucketForAssign theme themeProperty)
            componentName
            ⟨"COMPONENT_STYLE", some entry.1, JsVal.str themeValue.value⟩ with
        | .error e => .error e
        | .ok b => .ok (setKey theme themeProperty b)

/-- One iteration of `components.forEach` (part_003 lines 62-72). -/
def componentStep (values : List ThemeValue) (theme : JsObject)
    (component : ThemeComponent) : Except String JsObject :=
  forEachE (componentStyleStep values component.name) theme component.styles

/-- One `Object.entries(styles)` iteration of the variants pass
(part_003 lines 77-84); the assigned data id is `COMPONENT_STYLE` in this
snapshot. -/
def variantStyleStep (values : List ThemeValue) (variantType : ComponentName)
    (variantName : String) (theme : JsObject) (entry : String × StyleVal) :
    Except String JsObject :=
  if entry.2 = StyleVal.s "" then .ok theme
  else
    match findValueByStyleVal values entry.2 with
    | none =>
      .error (findThemeValueError (styleValToString entry.2) entry.1
        variantName (componentKindName variantType))
    | some themeValue =>
      match assignIntoBucket
          (bucketForAssign theme (componentVariantsPropertyMap variantType))
          variantName
          ⟨"COMPONENT_STYLE", some entry.1, JsVal.str themeValue.value⟩ with
      | .error e => .error e
      | .ok b =>
        .ok (setKey theme (componentVariantsPropertyMap variantType) b)

/-- One iteration of `variants.forEach` (part_003 lines 76-85). -/
def variantStep (values : List ThemeValue) (theme : JsObject)
    (variant : ThemeVariant) : Except String JsObject :=
  forEachE (variantStyleStep values variant.variantType variant.name) theme
    variant.styles

/-- `themeProcessor` of src/unnamed/part_003 (lines 41-89): guard,
flat-values pass, sort pass, component pass, variants pass. -/
def themeProcessor (values : List ThemeValue)
    (components : List ThemeComponent) (variants : List ThemeVariant) :
    Except String JsObject :=
  if values.length == 0 then
    .error "ThemeValues were not passed to the themeProcessor"
  else
    match forEachE valueStep [] values with
    | .error e => .error e
    | .ok t1 =>
      match forEachE (componentStep values) (sortThemeValuesAscendingPass t1)
          components with
      | .error e => .error e
      | .ok t2 =>
        match forEachE (variantStep values) t2 variants with
        | .error e => .error e
        | .ok t3 => .ok t3

end Part003

/-- Named-property read on a bucket (`bucket[name]`): an object's property,
an array's named property, `undefined` on a primitive string. -/
def jsGet (b : JsVal) (name : String) : Option JsVal :=
  match b with
  | .obj props => getKey props name
  | .arr _ props => getKey props name
  | .str _ => none

/-- `theme[bucket][name]`. -/
def themeLookup (theme : JsObject) (bucket name : String) : Option JsVal :=
  match getKey theme bucket with
  | some b => jsGet b name
  | none => none

/-- `theme[bucket][name][prop]`. -/
def themeLookup2 (theme : JsObject) (bucket name prop : String) :
    Option JsVal :=
  match themeLookup theme bucket name with
  | some b => jsGet b prop
  | none => none

/-- The LAST token of the flat `values` collection that targets bucket `k`
(via the part_002 `themeTypePropertyMap`) under name `n` — the
last-write-wins witness. -/
def lastWrite (values : List ThemeValue) (k n : String) : Option ThemeValue :=
  (values.filter
    (fun v => themeTypePropertyMapB v.type = k && v.name = some n)).getLast?

/-- A theme object all of whose buckets are arrays or objects (never a
primitive string); every theme built by the processors satisfies this. -/
def ThemeWf (t : JsObject) : Prop := ∀ p ∈ t, ∀ s, p.2 ≠ JsVal.str s

theorem getKey_setKey_self (o : JsObject) (k : String) (v : JsVal) :
    getKey (setKey o k v) k = some v := by
  induction o with
  | nil => simp [setKey, getKey]
  | cons p rest ih =>
    by_cases h : p.1 = k
    · simp [setKey, h, getKey]
    · simpa [setKey, h, getKey] using ih

theorem getKey_setKey_ne (o : JsObject) (k k2 : String) (v : JsVal)
    (h : k2 ≠ k) : getKey (setKey o k v) k2 = getKey o k2 := by
  induction o with
  | nil => simp [setKey, getKey, Ne.symm h]
  | cons p rest ih =>
    by_cases hp : p.1 = k
    · have hpk2 : ¬p.1 = k2 := by rw [hp]; exact Ne.symm h
      simp [setKey, hp, getKey, Ne.symm h, hpk2]
    · by_cases hp2 : p.1 = k2
      · simp [setKey, hp, getKey, hp2, h]
      · simpa [setKey, hp, getKey, hp2] using ih

theorem getKey_mem (o : JsObject) (k : String) (b : JsVal)
    (h : getKey o k = some b) : (k, b) ∈ o := by
  induction o with
  | nil => simp [getKey] at h
  | cons p rest ih =>
    by_cases hp : p.1 = k
    · simp [getKey, hp] at h
      have : p = (k, b) := by
        cases p
        simp at hp ⊢
        exact ⟨hp, h⟩
      rw [← this]
      exact List.mem_cons_self p rest
    · simp [getKey, hp] at h
      exact List.mem_cons_of_mem p (ih h)

theorem mem_setKey (o : JsObject) (k : String) (v : JsVal)
    (q : String × JsVal) (h : q ∈ setKey o k v) : q = (k, v) ∨ q ∈ o := by
  induction o with
  | nil => simpa [setKey] using h
  | cons p rest ih =>
    by_cases hp : p.1 = k
    · simp [setKey, hp] at h
      rcases h with h | h
      · left; simp [h]
      · right; simp [h]
    · simp [setKey, hp] at h
      rcases h with h | h
      · right; simp [h]
      · rcases ih h with h2 | h2
        · left; exact h2
        · right; simp [h2]

theorem getKey_map_val (o : JsObject) (k : String) (f : JsVal → JsVal) :
    getKey (o.map (fun p => (p.1, f p.2))) k = (getKey o k).map f := by
  induction o with
  | nil => simp [getKey]
  | cons p rest ih =>
    by_cases hp : p.1 = k
    · simp [getKey, hp]
    · simpa [getKey, hp] using ih

theorem themeWf_setKey (o : JsObject) (k : String) (v : JsVal)
    (hwf : ThemeWf o) (hv : ∀ s, v ≠ JsVal.str s) : ThemeWf (setKey o k v) := by
  intro q hq s
  rcases mem_setKey o k v q hq with h | h
  · simpa [h] using hv s
  · exact hwf q h s

theorem setProp_not_str (b : JsVal) (name : String) (v : JsVal)
    (hb : ∀ s, b ≠ JsVal.str s) : ∀ s, setProp b name v ≠ JsVal.str s := by
  intro s
  cases b with
  | str s2 => exact absurd rfl (hb s2)
  | arr elems props => simp [setProp]
  | obj props => simp [setProp]

theorem pushElem_not_str (b : JsVal) (v : JsVal)
    (hb : ∀ s, b ≠ JsVal.str s) : ∀ s, pushElem b v ≠ JsVal.str s := by
  intro s
  cases b with
  | str s2 => exact absurd rfl (hb s2)
  | arr elems props => simp [pushElem]
  | obj props => simp [pushElem]

theorem assignThemeValue_wf (t : JsObject) (k : String) (d : AssignData)
    (t2 : JsObject) (hwf : ThemeWf t)
    (h : assignThemeValue t k d = Except.ok t2) : ThemeWf t2 := by
  unfold assignThemeValue at h
  cases hd : d.name with
  | some name =>
    rw [hd] at h
    cases hg : getKey t k with
    | some b =>
      rw [hg] at h
      have hb : ∀ s, b ≠ JsVal.str s := fun s => hwf (k, b) (getKey_mem t k b hg) s
      by_cases ht : jsTruthy b = true
      · simp [ht] at h
        exact h ▸ themeWf_setKey t k _ hwf (setProp_not_str b name d.value hb)
      · simp [ht] at h
        exact h ▸ themeWf_setKey t k _ hwf (by simp)
    | none =>
      rw [hg] at h
      simp at h
      exact h ▸ themeWf_setKey t k _ hwf (by simp)
  | none =>
    rw [hd] at h
    cases hg : getKey t k with
    | some b =>
      rw [hg] at h
      have hb : ∀ s, b ≠ JsVal.str s := fun s => hwf (k, b) (getKey_mem t k b hg) s
      by_cases ht : jsTruthy b = true
      · by_cases ha : isArray b = true
        · simp [ht, ha] at h
          exact h ▸ themeWf_setKey t k _ hwf (pushElem_not_str b d.value hb)
        · simp [ht, ha] at h
      · simp [ht] at h
        exact h ▸ themeWf_setKey t k _ hwf (by simp)
    | none =>
      rw [hg] at h
      simp at h
      exact h ▸ themeWf_setKey t k _ hwf (by simp)

theorem forEachE_wf {α : Type} (f : JsObject → α → Except String JsObject)
    (hf : ∀ t x t2, ThemeWf t → f t x = Except.ok t2 → ThemeWf t2) :
    ∀ (l : List α) (t t2 : JsObject), ThemeWf t →
      forEachE f t l = Except.ok t2 → ThemeWf t2 := by
  intro l
  induction l with
  | nil =>
    intro t t2 hwf h
    simp [forEachE] at h
    exact h ▸ hwf
  | cons x xs ih =>
    intro t t2 hwf h
    unfold forEachE at h
    cases hx : f t x with
    | error e => rw [hx] at h; simp at h
    | ok t1 =>
      rw [hx] at h
      exact ih t1 t2 (hf t x t1 hwf hx) h

theorem jsGet_setProp_self (b : JsVal) (n : String) (v : JsVal)
    (hb : ∀ s, b ≠ JsVal.str s) : jsGet (setProp b n v) n = some v := by
  cases b with
  | str s => exact absurd rfl (hb s)
  | arr elems props => simp [setProp, jsGet, getKey_setKey_self]
  | obj props => simp [setProp, jsGet, getKey_setKey_self]

theorem jsGet_setProp_ne (b : JsVal) (n n2 : String) (v : JsVal)
    (h : n2 ≠ n) : jsGet (setProp b n v) n2 = jsGet b n2 := by
  cases b with
  | str s => simp [setProp]
  | arr elems props => simp [setProp, jsGet, getKey_setKey_ne _ _ _ _ h]
  | obj props => simp [setProp, jsGet, getKey_setKey_ne _ _ _ _ h]

/-- Structural form of a named assignment: it always succeeds, writing
the updated bucket back under `key`. -/
theorem assignThemeValue_named_eq (t : JsObject) (k i n : String)
    (val : JsVal) :
    assignThemeValue t k ⟨i, some n, val⟩ =
      Except.ok (setKey t k
        (match getKey t k with
         | some b =>
           if jsTruthy b then setProp b n val else JsVal.obj [(n, val)]
         | none => JsVal.obj [(n, val)])) := by
  unfold assignThemeValue
  cases getKey t k with
  | some b => cases ht : jsTruthy b <;> simp [ht]
  | none => simp

/-- A successful named assignment makes `theme[key][name]` the assigned
value (the bucket is never a primitive string under `ThemeWf`). -/
theorem assignThemeValue_named_lookup (t : JsObject) (k i n : String)
    (val : JsVal) (t2 : JsObject) (hwf : ThemeWf t)
    (h : assignThemeValue t k ⟨i, some n, val⟩ = Except.ok t2) :
    themeLookup t2 k n = some val := by
  rw [assignThemeValue_named_eq] at h
  simp at h
  rw [← h]
  unfold themeLookup
  rw [getKey_setKey_self]
  cases hg : getKey t k with
  | some b =>
    have hb : ∀ s, b ≠ JsVal.str s := fun s => hwf (k, b) (getKey_mem t k b hg) s
    have ht : jsTruthy b = true := by
      cases b with
      | str s => exact absurd rfl (hb s)
      | arr elems props => rfl
      | obj props => rfl
    simp only [ht, if_true]
    exact jsGet_setProp_self b n val hb
  | none => simp [jsGet, getKey]

/-- An assignment that does not target `(k, n)` leaves `theme[k][n]`
unchanged. -/
theorem assignThemeValue_frame (t : JsObject) (k2 k n : String)
    (d : AssignData) (t2 : JsObject)
    (h : assignThemeValue t k2 d = Except.ok t2)
    (hk : k2 ≠ k ∨ d.name ≠ some n) :
    themeLookup t2 k n = themeLookup t k n := by
  unfold assignThemeValue at h
  cases hd : d.name with
  | some n2 =>
    rw [hd] at h
    cases hg : getKey t k2 with
    | some b =>
      rw [hg] at h
      by_cases ht : jsTruthy b = true
      · simp [ht] at h
        rw [← h]
        by_cases hkk : k2 = k
        · subst hkk
          have hn2 : n ≠ n2 := by
            rcases hk with h2 | h2
            · exact absurd rfl h2
            · intro he; exact h2 (by rw [hd, he])
          unfold themeLookup
          rw [getKey_setKey_self, hg]
          exact jsGet_setProp_ne b n2 n d.value hn2
        · unfold themeLookup
          rw [getKey_setKey_ne t k2 k _ (Ne.symm hkk)]
      · simp [ht] at h
        rw [← h]
        by_cases hkk : k2 = k
        · subst hkk
          have hn2 : n ≠ n2 := by
            rcases hk with h2 | h2
            · exact absurd rfl h2
            · intro he; exact h2 (by rw [hd, he])
          have hb : ∃ s, b = JsVal.str s := by
            cases b with
            | str s => exact ⟨s, rfl⟩
            | arr elems props => simp [jsTruthy] at ht
            | obj props => simp [jsTruthy] at ht
          rcases hb with ⟨s, hs⟩
          unfold themeLookup
          rw [getKey_setKey_self, hg]
          simp [hs, jsGet, getKey, Ne.symm hn2]
        · unfold themeLookup
          rw [getKey_setKey_ne t k2 k _ (Ne.symm hkk)]
    | none =>
      rw [hg] at h
      simp at h
      rw [← h]
      by_cases hkk : k2 = k
      · subst hkk
        have hn2 : n ≠ n2 := by
          rcases hk with h2 | h2
          · exact absurd rfl h2
          · intro he; exact h2 (by rw [hd, he])
        unfold themeLookup
        rw [getKey_setKey_self, hg]
        simp [jsGet, getKey, Ne.symm hn2]
      · unfold themeLookup
        rw [getKey_setKey_ne t k2 k _ (Ne.symm hkk)]
  | none =>
    rw [hd] at h
    cases hg : getKey t k2 with
    | some b =>
      rw [hg] at h
      by_cases ht : jsTruthy b = true
      · by_cases ha : isArray b = true
        · simp [ht, ha] at h
          rw [← h]
          by_cases hkk : k2 = k
          · subst hkk
            unfold themeLookup
            rw [getKey_setKey_self, hg]
            cases b with
            | str s => simp [isArray] at ha
            | arr elems props => simp [pushElem, jsGet]
            | obj props => simp [isArray] at ha
          · unfold themeLookup
            rw [getKey_setKey_ne t k2 k _ (Ne.symm hkk)]
        · simp [ht, ha] at h
      · simp [ht] at h
        rw [← h]
        by_cases hkk : k2 = k
        · subst hkk
          have hb : ∃ s, b = JsVal.str s := by
            cases b with
            | str s => exact ⟨s, rfl⟩
            | arr elems props => simp [jsTruthy] at ht
            | obj props => simp [jsTruthy] at ht
          rcases hb with ⟨s, hs⟩
          unfold themeLookup
          rw [getKey_setKey_self, hg]
          simp [hs, jsGet, getKey]
        · unfold themeLookup
          rw [getKey_setKey_ne t k2 k _ (Ne.symm hkk)]
    | none =>
      rw [hg] at h
      simp at h
      rw [← h]
      by_cases hkk : k2 = k
      · subst hkk
        unfold themeLookup
        rw [getKey_setKey_self, hg]
        simp [jsGet, getKey]
      · unfold themeLookup
        rw [getKey_setKey_ne t k2 k _ (Ne.symm hkk)]

/-- The flat-values pass leaves `theme[k][n]` unchanged when no token in
the list targets `(k, n)`. -/
theorem valueStep_run_frame (k n : String) :
    ∀ (vs : List ThemeValue) (t t2 : JsObject),
      forEachE SchemaV2.valueStep t vs = Except.ok t2 →
      (∀ v ∈ vs, ¬(themeTypePropertyMapB v.type = k ∧ v.name = some n)) →
      themeLookup t2 k n = themeLookup t k n := by
  intro vs
  induction vs with
  | nil =>
    intro t t2 h _
    simp [forEachE] at h
    rw [h]
  | cons v0 vs ih =>
    intro t t2 h hno
    unfold forEachE at h
    cases hstep : SchemaV2.valueStep t v0 with
    | error e => rw [hstep] at h; simp at h
    | ok t1 =>
      rw [hstep] at h
      have hframe : themeLookup t1 k n = themeLookup t k n := by
        have hv0 := hno v0 (List.mem_cons_self v0 vs)
        rcases Decidable.em (themeTypePropertyMapB v0.type = k) with hk | hk
        · have hname : v0.name ≠ some n := fun he => hv0 ⟨hk, he⟩
          exact assignThemeValue_frame t _ k n _ t1 hstep (Or.inr hname)
        · exact assignThemeValue_frame t _ k n _ t1 hstep (Or.inl hk)
      rw [ih t1 t2 h (fun v hv => hno v (List.mem_cons_of_mem v0 hv)), hframe]

/-- The flat-values pass writes the LAST `(k, n)`-targeting token's value
to `theme[k][n]`. -/
theorem valueStep_run_write (k n : String) :
    ∀ (vs : List ThemeValue) (t t2 : JsObject) (v : ThemeValue),
      ThemeWf t → forEachE SchemaV2.valueStep t vs = Except.ok t2 →
      lastWrite vs k n = some v →
      themeLookup t2 k n = some (JsVal.str v.value) := by
  intro vs
  induction vs with
  | nil =>
    intro t t2 v _ _ hlast
    simp [lastWrite] at hlast
  | cons v0 vs ih =>
    intro t t2 v hwf h hlast
    unfold forEachE at h
    cases hstep : SchemaV2.valueStep t v0 with
    | error e => rw [hstep] at h; simp at h
    | ok t1 =>
      rw [hstep] at h
      have hwf1 : ThemeWf t1 := assignThemeValue_wf t _ _ t1 hwf hstep
      by_cases hc :
          (themeTypePropertyMapB v0.type = k && v0.name = some n) = true
      · cases hfs : vs.filter
            (fun v => themeTypePropertyMapB v.type = k && v.name = some n) with
        | nil =>
          have hv0 : v = v0 := by
            unfold lastWrite at hlast
            rw [List.filter_cons, if_pos hc, hfs] at hlast
            simpa using hlast.symm
          have hk : themeTypePropertyMapB v0.type = k := by
            simpa using (Bool.and_eq_true _ _ |>.mp hc).1
          have hn : v0.name = some n := by
            have := (Bool.and_eq_true _ _ |>.mp hc).2
            simpa using this
          have hwrite : themeLookup t1 k n = some (JsVal.str v0.value) := by
            have hstep2 : assignThemeValue t k
                ⟨v0.id, some n, JsVal.str v0.value⟩ = Except.ok t1 := by
              unfold SchemaV2.valueStep at hstep
              rw [hk, hn] at hstep
              exact hstep
            exact assignThemeValue_named_lookup t k v0.id n _ t1 hwf hstep2
          have hframe := valueStep_run_frame k n vs t1 t2 h (by
            intro v2 hv2 hmatch
            have : v2 ∈ vs.filter
                (fun v => themeTypePropertyMapB v.type = k &&
                  v.name = some n) := by
              rw [List.mem_filter]
              exact ⟨hv2, by simp [hmatch.1, hmatch.2]⟩
            rw [hfs] at this
            simp at this)
          rw [hframe, hwrite, hv0]
        | cons a l =>
          have hlast2 : lastWrite vs k n = some v := by
            unfold lastWrite at hlast ⊢
            rw [List.filter_cons, if_pos hc, hfs] at hlast
            rw [hfs]
            rw [List.getLast?_cons_cons] at hlast
            exact hlast
          exact ih t1 t2 v hwf1 h hlast2
      · have hlast2 : lastWrite vs k n = some v := by
          unfold lastWrite at hlast ⊢
          rw [List.filter_cons] at hlast
          simp only [hc] at hlast
          simpa using hlast
        exact ih t1 t2 v hwf1 h hlast2

/-- Reading a member of a sorted bucket returns the sorted image of the
original member. -/
theorem jsGet_sortBucket (b : JsVal) (n : String) :
    jsGet (if jsTruthy b then sortBucketContents b else b) n =
      (jsGet b n).map sortIfArray := by
  cases b with
  | str s => simp [sortBucketContents, jsGet]
  | arr elems props =>
    simp [jsTruthy, sortBucketContents, jsGet]
    exact getKey_map_val props n sortIfArray
  | obj props =>
    simp [jsTruthy, sortBucketContents, jsGet]
    exact getKey_map_val props n sortIfArray

/-- The sort pass maps every `theme[k][n]` through `sortIfArray`. -/
theorem themeLookup_sortPass (t : JsObject) (k n : String) :
    themeLookup (sortThemeValuesAscendingPass t) k n =
      (themeLookup t k n).map sortIfArray := by
  unfold themeLookup sortThemeValuesAscendingPass
  rw [getKey_map_val t k (fun b => if jsTruthy b then sortBucketContents b else b)]
  cases getKey t k with
  | some b => simpa using jsGet_sortBucket b n
  | none => simp

/-- `SchemaV2.groupMemberStep` preserves well-formedness. -/
theorem groupMemberStep_wf (values : List ThemeValue) (g : ThemeGroup) :
    ∀ t m t2, ThemeWf t →
      SchemaV2.groupMemberStep values g t m = Except.ok t2 → ThemeWf t2 := by
  intro t m t2 hwf h
  unfold SchemaV2.groupMemberStep at h
  cases hf : values.find? (fun v => v.id = m) with
  | none => rw [hf] at h; simp at h
  | some member =>
    rw [hf] at h
    exact assignThemeValue_wf t _ _ t2 hwf h

/-- `SchemaV2.groupStep` preserves well-formedness. -/
theorem groupStep_wf (values : List ThemeValue) :
    ∀ t g t2, ThemeWf t →
      SchemaV2.groupStep values t g = Except.ok t2 → ThemeWf t2 := by
  intro t g t2 hwf h
  exact forEachE_wf _ (groupMemberStep_wf values g) g.members t t2 hwf h

/-- Dropping a list element on which the step is the identity does not
change a `forEach` run. -/
theorem forEachE_skip_elem {α : Type}
    (f : JsObject → α → Except String JsObject) (x : α)
    (hx : ∀ t, f t x = Except.ok t) :
    ∀ (l1 l2 : List α) (t : JsObject),
      forEachE f t (l1 ++ x :: l2) = forEachE f t (l1 ++ l2) := by
  intro l1
  induction l1 with
  | nil =>
    intro l2 t
    simp [forEachE, hx]
  | cons a l1 ih =>
    intro l2 t
    simp only [List.cons_append]
    unfold forEachE
    cases f t a with
    | error e => rfl
    | ok t1 => exact ih l2 t1

/-- Replacing a list element by one on which the step agrees does not
change a `forEach` run. -/
theorem forEachE_congr_elem {α : Type}
    (f : JsObject → α → Except String JsObject) (x y : α)
    (hxy : ∀ t, f t x = f t y) :
    ∀ (l1 l2 : List α) (t : JsObject),
      forEachE f t (l1 ++ x :: l2) = forEachE f t (l1 ++ y :: l2) := by
  intro l1
  induction l1 with
  | nil =>
    intro l2 t
    simp only [List.nil_append]
    unfold forEachE
    rw [hxy t]
  | cons a l1 ih =>
    intro l2 t
    simp only [List.cons_append]
    unfold forEachE
    cases f t a with
    | error e => rfl
    | ok t1 => exact ih l2 t1

/-- If the desired name is unavailable, the collision-avoided name is a
strictly longer string, hence different. -/
theorem makeAvailableName_ne (desired : String)
    (unavailableNames : List String)
    (h : desired ∈ unavailableNames) :
    makeAvailableName desired unavailableNames ≠ desired := by
  unfold makeAvailableName
  rw [if_pos (List.elem_iff.mpr h)]
  cases (List.range (unavailableNames.length + 1)).find?
      (fun k => ! unavailableNames.contains
        (desired ++ " " ++ toString (k + 2))) with
  | some k =>
    intro heq
    have hl := congrArg String.length heq
    simp [String.length_append] at hl
    have hsp : (" ").length = 1 := rfl
    rw [hsp] at hl
    omega
  | none =>
    intro heq
    have hl := congrArg String.length heq
    simp [String.length_append] at hl
    have hsp : (" ").length = 1 := rfl
    rw [hsp] at hl
    omega

/-- If the desired name is available, it is returned unchanged. -/
theorem makeAvailableName_eq (desired : String)
    (unavailableNames : List String)
    (h : desired ∉ unavailableNames) :
    makeAvailableName desired unavailableNames = desired := by
  unfold makeAvailableName
  rw [if_neg (fun hc => h (List.elem_iff.mp hc))]

/-- Membership characterization of the group-scoped unavailable-name
set. -/
theorem mem_unavailableNamesOf (themeValues : List ThemeValue)
    (type : ThemeValueType) (groups : List String) (x : String) :
    x ∈ SchemaV2.unavailableNamesOf themeValues type groups ↔
      ∃ v ∈ themeValues, v.name = some x ∧ v.type = type ∧
        (groups = [] ∨ v.groups.any (fun i => groups.contains i) = true) := by
  unfold SchemaV2.unavailableNamesOf
  rw [List.mem_filterMap]
  constructor
  · rintro ⟨v, hv, hf⟩
    cases hn : v.name with
    | none => rw [hn] at hf; simp at hf
    | some nm =>
      rw [hn] at hf
      simp only at hf
      by_cases htype : v.type = type
      · rw [if_pos htype] at hf
        by_cases hemp : groups.isEmpty
        · rw [if_pos hemp] at hf
          simp at hf
          exact ⟨v, hv, by rw [hn, hf], htype,
            Or.inl (List.isEmpty_iff.mp hemp)⟩
        · rw [if_neg hemp] at hf
          by_cases hshare : v.groups.any (fun i => groups.contains i) = true
          · rw [if_pos hshare] at hf
            simp at hf
            exact ⟨v, hv, by rw [hn, hf], htype, Or.inr hshare⟩
          · rw [if_neg hshare] at hf
            simp at hf
      · rw [if_neg htype] at hf
        simp at hf
  · rintro ⟨v, hv, hn, htype, hg⟩
    refine ⟨v, hv, ?_⟩
    rw [hn]
    simp only
    rw [if_pos htype]
    rcases hg with hg | hg
    · rw [if_pos (by simp [hg])]
    · by_cases hemp : groups.isEmpty
      · rw [if_pos hemp]
      · rw [if_neg hemp, if_pos hg]

/-- Membership characterization of the all-same-kind unavailable-name
set. -/
theorem mem_unavailableNamesOfAll (themeValues : List ThemeValue)
    (type : ThemeValueType) (x : String) :
    x ∈ ProcessorV1.unavailableNamesOf themeValues type ↔
      ∃ v ∈ themeValues, v.name = some x ∧ v.type = type := by
  unfold ProcessorV1.unavailableNamesOf
  rw [List.mem_filterMap]
  constructor
  · rintro ⟨v, hv, hf⟩
    cases hn : v.name with
    | none => rw [hn] at hf; simp at hf
    | some nm =>
      rw [hn] at hf
      simp only at hf
      by_cases htype : v.type = type
      · rw [if_pos htype] at hf
        simp at hf
        exact ⟨v, hv, by rw [hn, hf], htype⟩
      · rw [if_neg htype] at hf
        simp at hf
  · rintro ⟨v, hv, hn, htype⟩
    exact ⟨v, hv, by rw [hn]; simp only; rw [if_pos htype]⟩

/-- C2: the claim states that after compile every list-style bucket holds
its values sorted in ascending numeric order.  The code does not do this:
`sortThemeValuesAscending` receives `Object.values(property)` — the
MEMBERS of each bucket — and sorts only members that are themselves
arrays; token values are strings, so no list bucket is ever reordered.
On two breakpoint tokens with values "2" then "1", the compiled
`breakpoints` bucket stays `["2", "1"]` (insertion order), while the
comparator `(a, b) => a - b` itself — modelled by `insertionSortJs` —
would have produced `["1", "2"]`. -/
theorem c2_list_buckets_left_unsorted :
    ProcessorV1.themeProcessor
      [⟨"b2", .breakpoint, none, "2", []⟩, ⟨"b1", .breakpoint, none, "1", []⟩]
      [] =
      Except.ok [("breakpoints", JsVal.arr [JsVal.str "2", JsVal.str "1"] [])]
    ∧ insertionSortJs [JsVal.str "2", JsVal.str "1"] =
      [JsVal.str "1", JsVal.str "2"] := by
  constructor
  · rfl
  · rfl

/-- C3 counterexample: on exactly the claim's input — the color token
`{id:"a", type:"color", name:"Red", value:"#FF0000"}` and the component
override `{name:"button", styles:{color:"a"}}` — compile succeeds but the
output theme has NO `buttons` bucket at all, so
`theme.buttons.button.color` is not `"#FF0000"`: the component pass
resolves the bucket from the STYLE PROPERTY (`color` → `colors`), not
from a component kind. -/
theorem c3_counterexample :
    (Part003.themeProcessor [⟨"a", .color, some "Red", "#FF0000", []⟩]
      [⟨"button", [("color", "a")]⟩] []).map
      (fun t => getKey t "buttons") = Except.ok none := by
  rfl

/-- C3 (amended): on the claim's input, compile succeeds,
`theme.colors.Red === "#FF0000"`, and the component override lands NESTED
INSIDE the token bucket resolved from the style property:
`theme.colors.button.color === "#FF0000"`; no component-kind bucket is
created or populated by the component pass. -/
theorem c3_component_override_lands_in_token_bucket :
    (Part003.themeProcessor [⟨"a", .color, some "Red", "#FF0000", []⟩]
      [⟨"button", [("color", "a")]⟩] []).map
      (fun t => themeLookup t "colors" "Red") =
      Except.ok (some (JsVal.str "#FF0000")) ∧
    (Part003.themeProcessor [⟨"a", .color, some "Red", "#FF0000", []⟩]
      [⟨"button", [("color", "a")]⟩] []).map
      (fun t => themeLookup2 t "colors" "button" "color") =
      Except.ok (some (JsVal.str "#FF0000")) ∧
    (Part003.themeProcessor [⟨"a", .color, some "Red", "#FF0000", []⟩]
      [⟨"button", [("color", "a")]⟩] []).map
      (fun t => getKey t "buttons") = Except.ok none := by
  exact ⟨rfl, rfl, rfl⟩

/-- C5 counterexample: neither the config.ts snapshot of `themeProcessor`
nor the second processor.ts snapshot has an empty-tokens guard — each
compiles the EMPTY token collection to its fully-initialized default
theme instead of throwing. -/
theorem c5_counterexample :
    ConfigV2.themeProcessor [] [] = Except.ok ConfigV2.initialTheme ∧
    ProcessorV2.themeProcessor [] [] =
      Except.ok ProcessorV2.initialTheme := by
  exact ⟨rfl, rfl⟩

/-- C5 (amended): the FIRST processor.ts snapshot, the schema.ts snapshot
and the part_003 snapshot of `themeProcessor` do throw the MissingInput
error on an empty token collection — regardless of the variants, groups
or components supplied — but the SECOND processor.ts snapshot and the
config.ts snapshot have no such guard and return their pre-initialized
default theme for the empty collection with no variants. -/
theorem c5_empty_values_guard :
    (∀ variants, ProcessorV1.themeProcessor [] variants =
      Except.error "ThemeValues were not passed to the themeProcessor") ∧
    (∀ groups components, SchemaV2.themeProcessor [] groups components =
      Except.error "ThemeValues were not passed to the themeProcessor") ∧
    (∀ components variants, Part003.themeProcessor [] components variants =
      Except.error "ThemeValues were not passed to the themeProcessor") ∧
    ProcessorV2.themeProcessor [] [] = Except.ok ProcessorV2.initialTheme := by
  exact ⟨fun _ => rfl, fun _ _ => rfl, fun _ _ => rfl, rfl⟩

/-- C8 counterexample: compilation does NOT abort when a named value is
assigned into a bucket already holding list-shaped data.  A group of type
`space` whose members are an unnamed space token and then a named color
token makes the group pass attach `Red` as a NAMED PROPERTY of the
`space` array — compile succeeds with a mixed-shape bucket. -/
theorem c8_counterexample :
    SchemaV2.themeProcessor
      [⟨"s1", .space, none, "8px", []⟩, ⟨"c1", .color, some "Red", "#F00", []⟩]
      [⟨"g1", .space, "G", ["s1", "c1"]⟩] [] =
      Except.ok
        [("space",
          JsVal.arr [JsVal.str "8px", JsVal.str "8px"]
            [("Red", JsVal.str "#F00")]),
         ("colors", JsVal.obj [("Red", JsVal.str "#F00")])] := by
  rfl

/-- C8 (amended): only ONE direction of the kind-confusion aborts: an
UNNAMED value assigned into a bucket already holding a name-keyed object
throws the ShapeConflict error (in both `assignThemeValue` snapshots);
the opposite direction — a named value into a list-shaped bucket — does
not error (see the counterexample). -/
theorem c8_unnamed_into_named_bucket_errors (object : JsObject)
    (key : String) (data : AssignData) (props : List (String × JsVal))
    (h1 : data.name = none) (h2 : getKey object key = some (JsVal.obj props)) :
    assignThemeValue object key data =
      Except.error (cannotAssignMsg data.id key) ∧
    assignThemeValueStrict object key data =
      Except.error (cannotAssignMsg data.id key) := by
  constructor
  · unfold assignThemeValue
    rw [h1, h2]
    rfl
  · unfold assignThemeValueStrict
    rw [h1, h2]

/-- Witness for C8: a concrete unnamed assignment into an object-shaped
bucket throws. -/
theorem c8_witness :
    assignThemeValue [("colors", JsVal.obj [])] "colors"
      ⟨"x", none, JsVal.str "v"⟩ =
      Except.error (cannotAssignMsg "x" "colors") :=
  (c8_unnamed_into_named_bucket_errors [("colors", JsVal.obj [])] "colors"
    ⟨"x", none, JsVal.str "v"⟩ [] rfl rfl).1

/-- A member list containing a dangling id makes the member pass throw
(some error: the dangling error when reached first, or an earlier
assignment error). -/
theorem groupMembers_dangling_error (values : List ThemeValue)
    (g : ThemeGroup) :
    ∀ (members : List String) (t : JsObject),
      (∃ m ∈ members, values.find? (fun v => v.id = m) = none) →
      ∃ e, forEachE (SchemaV2.groupMemberStep values g) t members =
        Except.error e := by
  intro members
  induction members with
  | nil => intro t h; simp at h
  | cons m0 ms ih =>
    intro t h
    unfold forEachE
    cases hstep : SchemaV2.groupMemberStep values g t m0 with
    | error e => exact ⟨e, rfl⟩
    | ok t1 =>
      have hm0 : values.find? (fun v => v.id = m0) ≠ none := by
        intro hf
        unfold SchemaV2.groupMemberStep at hstep
        rw [hf] at hstep
        simp at hstep
      rcases h with ⟨m, hm, hfind⟩
      rcases List.mem_cons.mp hm with rfl | hmem
      · exact absurd hfind hm0
      · exact ih t1 ⟨m, hmem, hfind⟩

/-- A group list containing a dangling member makes the group pass
throw. -/
theorem groups_dangling_error (values : List ThemeValue) :
    ∀ (groups : List ThemeGroup) (t : JsObject),
      (∃ g ∈ groups, ∃ m ∈ g.members,
        values.find? (fun v => v.id = m) = none) →
      ∃ e, forEachE (SchemaV2.groupStep values) t groups =
        Except.error e := by
  intro groups
  induction groups with
  | nil => intro t h; simp at h
  | cons g0 gs ih =>
    intro t h
    unfold forEachE
    cases hstep : SchemaV2.groupStep values t g0 with
    | error e => exact ⟨e, rfl⟩
    | ok t1 =>
      rcases h with ⟨g, hg, hdangle⟩
      rcases List.mem_cons.mp hg with rfl | hmem
      · obtain ⟨e, he⟩ :=
          groupMembers_dangling_error values g g.members t hdangle
        unfold SchemaV2.groupStep at hstep
        rw [he] at hstep
        simp at hstep
      · exact ih t1 ⟨g, hmem, hdangle⟩

/-- C1 (amended): whenever some group has a member id with no matching
token, compile never returns a theme — it throws SOME error — and when
the dangling member is the first member of the first group (so no earlier
assignment can throw first), the error is exactly the DanglingReference
error naming that id.  The original claim is refuted by
`c1_counterexample`: an earlier shape-conflict in the group pass can
preempt the DanglingReference error. -/
theorem c1_dangling_group_reference (values : List ThemeValue)
    (groups : List ThemeGroup) (components : List ThemeComponent)
    (h : ∃ g ∈ groups, ∃ m ∈ g.members,
      values.find? (fun v => v.id = m) = none) :
    (∃ e, SchemaV2.themeProcessor values groups components =
      Except.error e) ∧
    (∀ g gs m ms, groups = g :: gs → g.members = m :: ms →
      values.find? (fun v => v.id = m) = none → values ≠ [] →
      SchemaV2.themeProcessor values groups components =
        Except.error (SchemaV2.groupDanglingMsg m g)) := by
  constructor
  · unfold SchemaV2.themeProcessor
    by_cases hlen : (values.length == 0) = true
    · rw [if_pos hlen]
      exact ⟨_, rfl⟩
    · rw [if_neg hlen]
      obtain ⟨e, he⟩ := groups_dangling_error values groups [] h
      rw [he]
      exact ⟨e, rfl⟩
  · intro g gs m ms hgs hms hfind hvals
    unfold SchemaV2.themeProcessor
    have hlen : ¬(values.length == 0) = true := by
      cases values with
      | nil => exact absurd rfl hvals
      | cons a l => simp
    rw [if_neg hlen]
    subst hgs
    have hgstep : SchemaV2.groupStep values [] g =
        Except.error (SchemaV2.groupDanglingMsg m g) := by
      unfold SchemaV2.groupStep
      rw [hms]
      unfold forEachE
      unfold SchemaV2.groupMemberStep
      rw [hfind]
    have houter : forEachE (SchemaV2.groupStep values) [] (g :: gs) =
        Except.error (SchemaV2.groupDanglingMsg m g) := by
      unfold forEachE
      rw [hgstep]
    rw [houter]

/-- Witness for C1: a dangling first member of the first group yields
exactly the DanglingReference error. -/
theorem c1_witness :
    SchemaV2.themeProcessor [⟨"c1", .color, some "Red", "#F00", []⟩]
      [⟨"g1", .color, "G", ["ghost"]⟩] [] =
      Except.error
        (SchemaV2.groupDanglingMsg "ghost" ⟨"g1", .color, "G", ["ghost"]⟩) :=
  (c1_dangling_group_reference [⟨"c1", .color, some "Red", "#F00", []⟩]
    [⟨"g1", .color, "G", ["ghost"]⟩] []
    ⟨⟨"g1", .color, "G", ["ghost"]⟩, by simp, "ghost", by simp, rfl⟩).2
    ⟨"g1", .color, "G", ["ghost"]⟩ [] "ghost" [] rfl rfl rfl (by simp)

/-- C1 counterexample: the group `g1` of type `space` has the dangling
member id "ghost", yet compile throws the SHAPE-CONFLICT error for the
second member ("s1") — not a DanglingReference error, and the thrown
message does not mention "ghost" at all (the group pass assigns the named
color member into the `space` bucket first, turning it into an object, so
the unnamed space member then throws before "ghost" is ever looked
up). -/
theorem c1_counterexample :
    SchemaV2.themeProcessor
      [⟨"c1", .color, some "Red", "#F00", []⟩,
       ⟨"s1", .space, none, "8px", []⟩]
      [⟨"g1", .space, "G", ["c1", "s1", "ghost"]⟩] [] =
      Except.error (cannotAssignMsg "s1" "space") ∧
    charsContain (cannotAssignMsg "s1" "space").data ("ghost").data =
      false := by
  exact ⟨rfl, rfl⟩

/-- C6: the flat-tokens merge pass runs after the group pass, so the
final named-bucket entry at `(k, n)` is the value of the LAST token in
the flat `values` collection targeting `(k, n)` — last-write-wins by
input order, overwriting both group-pass assignments and earlier
same-kind same-name tokens. -/
theorem c6_flat_pass_last_write_wins (values : List ThemeValue)
    (groups : List ThemeGroup) (theme : JsObject) (k n : String)
    (v : ThemeValue)
    (h1 : SchemaV2.themeProcessor values groups [] = Except.ok theme)
    (h2 : lastWrite values k n = some v) :
    themeLookup theme k n = some (JsVal.str v.value) := by
  have hne : values ≠ [] := by
    intro he
    rw [he] at h2
    simp [lastWrite] at h2
  unfold SchemaV2.themeProcessor at h1
  have hguard : ¬(values.length == 0) = true := by
    cases values with
    | nil => exact absurd rfl hne
    | cons a l => simp
  rw [if_neg hguard] at h1
  cases hg : forEachE (SchemaV2.groupStep values) [] groups with
  | error e => rw [hg] at h1; simp at h1
  | ok t1 =>
    rw [hg] at h1
    simp only [] at h1
    cases hv2 : forEachE SchemaV2.valueStep t1 values with
    | error e => rw [hv2] at h1; simp at h1
    | ok t2 =>
      rw [hv2] at h1
      simp [forEachE] at h1
      have hwfnil : ThemeWf ([] : JsObject) := by
        intro p hp
        simp at hp
      have hwf1 : ThemeWf t1 :=
        forEachE_wf _ (groupStep_wf values) groups [] t1 hwfnil hg
      have hl : themeLookup t2 k n = some (JsVal.str v.value) :=
        valueStep_run_write k n values t1 t2 v hwf1 hv2 h2
      rw [← h1, themeLookup_sortPass, hl]
      rfl

/-- Witness for C6: a token named "Red" appears in a group and twice in
the flat collection; the final `colors.Red` is the SECOND flat token's
value. -/
theorem c6_witness :
    themeLookup [("colors", JsVal.obj [("Red", JsVal.str "#222")])]
      "colors" "Red" = some (JsVal.str "#222") :=
  c6_flat_pass_last_write_wins
    [⟨"r1", .color, some "Red", "#111", []⟩,
     ⟨"r2", .color, some "Red", "#222", []⟩]
    [⟨"g1", .color, "G", ["r1"]⟩]
    [("colors", JsVal.obj [("Red", JsVal.str "#222")])] "colors" "Red"
    ⟨"r2", .color, some "Red", "#222", []⟩ (by rfl) (by rfl)

/-- `finishName` never changes the `type` field. -/
theorem finishName_type (m : ThemeValue) (u : List String) :
    (finishName m u).type = m.type := by
  unfold finishName
  cases hm : m.name with
  | none => rfl
  | some d => rfl

/-- `finishName` on a named record applies `makeAvailableName`. -/
theorem finishName_name_some (m : ThemeValue) (u : List String) (d : String)
    (h : m.name = some d) :
    (finishName m u).name = some (makeAvailableName d u) := by
  unfold finishName
  rw [h]

/-- C10: the token returned by `createThemeValue` always has its `type`
field equal to the kind argument — the trailing `type` key of the spread
overrides any `type` contained in the supplied props — in both the
processor.ts and the schema.ts snapshots. -/
theorem c10_created_type_is_argument (freshId freshColor : String)
    (themeValues : List ThemeValue) (type : ThemeValueType)
    (props : ThemeValueProps) :
    (ProcessorV1.createThemeValue freshId freshColor themeValues type
      props).type = type ∧
    (SchemaV2.createThemeValue freshId freshColor themeValues type
      props).type = type := by
  constructor
  · simp only [ProcessorV1.createThemeValue]
    rw [finishName_type]
  · simp only [SchemaV2.createThemeValue]
    rw [finishName_type]

/-- C9: a component/variant style entry whose value is the empty string
is skipped entirely: compiling with the empty-string entry present gives
the SAME result as compiling with that entry removed — no schema lookup,
no token resolution, no error, no bucket change — in the part_003
component pass and the config.ts variants pass alike. -/
theorem c9_empty_string_entry_skipped :
    (∀ (values : List ThemeValue) (comps1 comps2 : List ThemeComponent)
        (variants : List ThemeVariant) (cname p : String)
        (s1 s2 : List (String × String)),
      Part003.themeProcessor values
        (comps1 ++ ThemeComponent.mk cname (s1 ++ (p, "") :: s2) :: comps2)
        variants =
      Part003.themeProcessor values
        (comps1 ++ ThemeComponent.mk cname (s1 ++ s2) :: comps2) variants) ∧
    (∀ (values : List ThemeValue) (vars1 vars2 : List ThemeVariant)
        (vt : ComponentName) (vn p : String)
        (s1 s2 : List (String × StyleVal)),
      ConfigV2.themeProcessor values
        (vars1 ++ ThemeVariant.mk vt vn (s1 ++ (p, StyleVal.s "") :: s2)
          :: vars2) =
      ConfigV2.themeProcessor values
        (vars1 ++ ThemeVariant.mk vt vn (s1 ++ s2) :: vars2)) := by
  constructor
  · intro values comps1 comps2 variants cname p s1 s2
    unfold Part003.themeProcessor
    have hcomp : ∀ t, forEachE (Part003.componentStep values) t
        (comps1 ++ ThemeComponent.mk cname (s1 ++ (p, "") :: s2) :: comps2) =
        forEachE (Part003.componentStep values) t
          (comps1 ++ ThemeComponent.mk cname (s1 ++ s2) :: comps2) := by
      intro t
      apply forEachE_congr_elem
      intro t2
      show forEachE (Part003.componentStyleStep values cname) t2
          (s1 ++ (p, "") :: s2) =
        forEachE (Part003.componentStyleStep values cname) t2 (s1 ++ s2)
      exact forEachE_skip_elem _ (p, "")
        (fun t3 => by simp [Part003.componentStyleStep]) s1 s2 t2
    by_cases hlen : (values.length == 0) = true
    · rw [if_pos hlen, if_pos hlen]
    · rw [if_neg hlen, if_neg hlen]
      cases forEachE Part003.valueStep [] values with
      | error e => rfl
      | ok t1 =>
        simp only []
        rw [hcomp (sortThemeValuesAscendingPass t1)]
  · intro values vars1 vars2 vt vn p s1 s2
    unfold ConfigV2.themeProcessor
    have hvar : ∀ t, forEachE (ConfigV2.variantStep values) t
        (vars1 ++ ThemeVariant.mk vt vn (s1 ++ (p, StyleVal.s "") :: s2)
          :: vars2) =
        forEachE (ConfigV2.variantStep values) t
          (vars1 ++ ThemeVariant.mk vt vn (s1 ++ s2) :: vars2) := by
      intro t
      apply forEachE_congr_elem
      intro t2
      show forEachE (ConfigV2.variantStyleStep values vt vn) t2
          (s1 ++ (p, StyleVal.s "") :: s2) =
        forEachE (ConfigV2.variantStyleStep values vt vn) t2 (s1 ++ s2)
      exact forEachE_skip_elem _ (p, StyleVal.s "")
        (fun t3 => by simp [ConfigV2.variantStyleStep]) s1 s2 t2
    cases forEachE ConfigV2.valueStep ConfigV2.initialTheme values with
    | error e => rfl
    | ok t1 =>
      simp only []
      rw [hvar (sortThemeValuesAscendingPass t1)]

/-- C7: group-scoped name-collision avoidance in the schema.ts
`createThemeValue`: with groups, only same-kind named tokens sharing at
least one group id are "taken" (so a same-named color token with disjoint
groups keeps its name, while one sharing a group forces a suffixed,
different name); without groups, all same-kind named tokens are taken. -/
theorem c7_group_scoped_name_collision (freshId freshColor : String)
    (themeValues : List ThemeValue) (type : ThemeValueType)
    (props : ThemeValueProps) (n : String) (gs : List String)
    (hname : props.name = some n) (hgroups : props.groups = some gs) :
    (gs ≠ [] →
      (∀ v ∈ themeValues, v.type = type → v.name = some n →
        v.groups.any (fun i => gs.contains i) = false) →
      (SchemaV2.createThemeValue freshId freshColor themeValues type
        props).name = some n) ∧
    (gs ≠ [] →
      (∃ v ∈ themeValues, v.type = type ∧ v.name = some n ∧
        v.groups.any (fun i => gs.contains i) = true) →
      (SchemaV2.createThemeValue freshId freshColor themeValues type
        props).name ≠ some n) ∧
    (gs = [] →
      (∃ v ∈ themeValues, v.type = type ∧ v.name = some n) →
      (SchemaV2.createThemeValue freshId freshColor themeValues type
        props).name ≠ some n) ∧
    ((∀ v ∈ themeValues, v.type = type → v.name ≠ some n) →
      (SchemaV2.createThemeValue freshId freshColor themeValues type
        props).name = some n) := by
  have hr : (SchemaV2.createThemeValue freshId freshColor themeValues type
      props).name =
      some (makeAvailableName n
        (SchemaV2.unavailableNamesOf themeValues type gs)) := by
    simp [SchemaV2.createThemeValue, finishName, hname, hgroups,
      Option.orElse]
  refine ⟨?_, ?_, ?_, ?_⟩
  · intro hgs hdisj
    have hnot : n ∉ SchemaV2.unavailableNamesOf themeValues type gs := by
      rw [mem_unavailableNamesOf]
      rintro ⟨v, hv, hvn, hvt, hcase⟩
      rcases hcase with hc | hc
      · exact hgs hc
      · rw [hdisj v hv hvt hvn] at hc
        simp at hc
    rw [hr, makeAvailableName_eq n _ hnot]
  · intro hgs hex
    rcases hex with ⟨v, hv, hvt, hvn, hshare⟩
    have hin : n ∈ SchemaV2.unavailableNamesOf themeValues type gs := by
      rw [mem_unavailableNamesOf]
      exact ⟨v, hv, hvn, hvt, Or.inr hshare⟩
    rw [hr]
    intro heq
    exact makeAvailableName_ne n _ hin (Option.some.inj heq)
  · intro hgs0 hex
    rcases hex with ⟨v, hv, hvt, hvn⟩
    have hin : n ∈ SchemaV2.unavailableNamesOf themeValues type gs := by
      rw [mem_unavailableNamesOf]
      exact ⟨v, hv, hvn, hvt, Or.inl hgs0⟩
    rw [hr]
    intro heq
    exact makeAvailableName_ne n _ hin (Option.some.inj heq)
  · intro hall
    have hnot : n ∉ SchemaV2.unavailableNamesOf themeValues type gs := by
      rw [mem_unavailableNamesOf]
      rintro ⟨v, hv, hvn, hvt, _⟩
      exact hall v hv hvt hvn
    rw [hr, makeAvailableName_eq n _ hnot]

/-- Witness for C7: against an existing color "X" in group `g1`, creating
color "X" in the disjoint group `g2` keeps the name "X", while creating
color "X" in the shared group `g1` does not. -/
theorem c7_witness :
    (SchemaV2.createThemeValue "id2" "#AAA"
      [⟨"id1", .color, some "X", "#111", ["g1"]⟩] .color
      ⟨none, none, some "X", some "#222", some ["g2"]⟩).name = some "X" ∧
    (SchemaV2.createThemeValue "id3" "#AAA"
      [⟨"id1", .color, some "X", "#111", ["g1"]⟩] .color
      ⟨none, none, some "X", some "#222", some ["g1"]⟩).name ≠ some "X" := by
  constructor
  · exact (c7_group_scoped_name_collision "id2" "#AAA"
      [⟨"id1", .color, some "X", "#111", ["g1"]⟩] .color
      ⟨none, none, some "X", some "#222", some ["g2"]⟩ "X" ["g2"] rfl rfl).1
      (by simp)
      (by
        intro v hv hvt hvn
        simp at hv
        subst hv
        decide)
  · exact (c7_group_scoped_name_collision "id3" "#AAA"
      [⟨"id1", .color, some "X", "#111", ["g1"]⟩] .color
      ⟨none, none, some "X", some "#222", some ["g1"]⟩ "X" ["g1"] rfl rfl).2.1
      (by simp)
      ⟨⟨"id1", .color, some "X", "#111", ["g1"]⟩, by simp, rfl, rfl,
        by decide⟩

/-- When every element of the array either resolves to a token or fails
the id-shape test, the array branch of `findThemeValue` succeeds,
resolving element-wise (token value if the id matches, the literal
otherwise). -/
theorem findThemeValue_arr_resolves (values : List ThemeValue)
    (sp vn vt : String) :
    ∀ xs : List String,
      (∀ e ∈ xs, values.find? (fun v => v.id = e) = none →
        UUID_REGEX_test e = false) →
      ProcessorV2.findThemeValue (StyleVal.arr xs) values sp vn vt =
        Except.ok (JsVal.arr
          ((xs.map (fun e =>
            match values.find? (fun v => v.id = e) with
            | some tv => tv.value
            | none => e)).map JsVal.str) []) := by
  have hloop : ∀ (xs : List String) (acc : List String),
      (∀ e ∈ xs, values.find? (fun v => v.id = e) = none →
        UUID_REGEX_test e = false) →
      (List.mapM.loop (fun str =>
        match values.find? (fun v => v.id = str) with
        | some themeValue => Except.ok themeValue.value
        | none =>
          if UUID_REGEX_test str then
            Except.error (findThemeValueError str sp vn vt)
          else Except.ok str) xs acc : Except String (List String)) =
        Except.ok (acc.reverse ++ xs.map (fun e =>
          match values.find? (fun v => v.id = e) with
          | some tv => tv.value
          | none => e)) := by
    intro xs
    induction xs with
    | nil =>
      intro acc h
      simp only [List.mapM.loop, List.map_nil, List.append_nil]
      rfl
    | cons e es ih =>
      intro acc h
      simp only [List.mapM.loop]
      cases hf : values.find? (fun v => v.id = e) with
      | some tv =>
        simp only [hf]
        show List.mapM.loop _ es (tv.value :: acc) = _
        rw [ih (tv.value :: acc)
          (fun x hx => h x (List.mem_cons_of_mem e hx))]
        simp [hf]
      | none =>
        have hu := h e (List.mem_cons_self e es) hf
        simp only [hf]
        rw [if_neg (by simp [hu])]
        show List.mapM.loop _ es (e :: acc) = _
        rw [ih (e :: acc) (fun x hx => h x (List.mem_cons_of_mem e hx))]
        simp [hf]
  intro xs h
  unfold ProcessorV2.findThemeValue
  simp only [List.mapM]
  rw [hloop xs [] h]
  rfl

/-- The first array element that has no matching token AND matches the
id-shape makes the array branch of `findThemeValue` throw the hard error
naming that element (every earlier element having resolved or passed
through). -/
theorem findThemeValue_arr_unresolved_id_errors (values : List ThemeValue)
    (sp vn vt s2 : String) (post : List String)
    (hfind : values.find? (fun v => v.id = s2) = none)
    (huuid : UUID_REGEX_test s2 = true) :
    ∀ pre : List String,
      (∀ e ∈ pre, values.find? (fun v => v.id = e) = none →
        UUID_REGEX_test e = false) →
      ProcessorV2.findThemeValue (StyleVal.arr (pre ++ s2 :: post)) values
        sp vn vt = Except.error (findThemeValueError s2 sp vn vt) := by
  have hloop : ∀ (pre : List String) (acc : List String),
      (∀ e ∈ pre, values.find? (fun v => v.id = e) = none →
        UUID_REGEX_test e = false) →
      (List.mapM.loop (fun str =>
        match values.find? (fun v => v.id = str) with
        | some themeValue => Except.ok themeValue.value
        | none =>
          if UUID_REGEX_test str then
            Except.error (findThemeValueError str sp vn vt)
          else Except.ok str) (pre ++ s2 :: post) acc :
        Except String (List String)) =
        Except.error (findThemeValueError s2 sp vn vt) := by
    intro pre
    induction pre with
    | nil =>
      intro acc h
      rw [List.nil_append]
      simp only [List.mapM.loop, hfind]
      rw [if_pos huuid]
      rfl
    | cons e pre ih =>
      intro acc h
      rw [List.cons_append]
      simp only [List.mapM.loop]
      cases hf : values.find? (fun v => v.id = e) with
      | some tv =>
        simp only [hf]
        show List.mapM.loop _ (pre ++ s2 :: post) (tv.value :: acc) = _
        rw [ih (tv.value :: acc)
          (fun x hx => h x (List.mem_cons_of_mem e hx))]
      | none =>
        have hu := h e (List.mem_cons_self e pre) hf
        simp only [hf]
        rw [if_neg (by simp [hu])]
        show List.mapM.loop _ (pre ++ s2 :: post) (e :: acc) = _
        rw [ih (e :: acc) (fun x hx => h x (List.mem_cons_of_mem e hx))]
  intro pre h
  unfold ProcessorV2.findThemeValue
  simp only [List.mapM]
  rw [hloop pre [] h]

/-- C4 (amended): in `findThemeValue`, every element — a single string,
or each element of an array of strings — is FIRST looked up as a token
id: an element with no matching token throws the hard error naming it iff
it matches the UUID id-shape, and passes through unchanged as a literal
otherwise; an element that matches some token's id resolves to the
token's value even if it does not match the id shape (see the
counterexample).  Conjuncts four and five state the same rule for the
array branch: an array whose every element resolves or passes through
yields the element-wise resolved array, and the first element with no
matching token that matches the id-shape aborts with the error naming it.
In particular, a variant with styles `{textTransform: "uppercase"}` and
no token whose id is "uppercase" compiles to
`theme.buttons.Primary.textTransform === "uppercase"`. -/
theorem c4_variant_id_shape_resolution (s : String)
    (values : List ThemeValue) (sp vn vt : String) (xs : List String) :
    (values.find? (fun v => v.id = s) = none → UUID_REGEX_test s = true →
      ProcessorV2.findThemeValue (StyleVal.s s) values sp vn vt =
        Except.error (findThemeValueError s sp vn vt)) ∧
    (values.find? (fun v => v.id = s) = none → UUID_REGEX_test s = false →
      ProcessorV2.findThemeValue (StyleVal.s s) values sp vn vt =
        Except.ok (JsVal.str s)) ∧
    (∀ tv, values.find? (fun v => v.id = s) = some tv →
      ProcessorV2.findThemeValue (StyleVal.s s) values sp vn vt =
        Except.ok (JsVal.str tv.value)) ∧
    ((∀ e ∈ xs, values.find? (fun v => v.id = e) = none →
        UUID_REGEX_test e = false) →
      ProcessorV2.findThemeValue (StyleVal.arr xs) values sp vn vt =
        Except.ok (JsVal.arr ((xs.map (fun e =>
          match values.find? (fun v => v.id = e) with
          | some tv => tv.value
          | none => e)).map JsVal.str) [])) ∧
    (∀ (pre : List String) (s2 : String) (post : List String),
      xs = pre ++ s2 :: post →
      (∀ e ∈ pre, values.find? (fun v => v.id = e) = none →
        UUID_REGEX_test e = false) →
      values.find? (fun v => v.id = s2) = none → UUID_REGEX_test s2 = true →
      ProcessorV2.findThemeValue (StyleVal.arr xs) values sp vn vt =
        Except.error (findThemeValueError s2 sp vn vt)) ∧
    (ConfigV2.themeProcessor [⟨"a", .color, some "Red", "#FF0000", []⟩]
      [⟨.button, "Primary", [("textTransform", StyleVal.s "uppercase")]⟩]).map
      (fun t => themeLookup2 t "buttons" "Primary" "textTransform") =
      Except.ok (some (JsVal.str "uppercase")) := by
  refine ⟨?_, ?_, ?_, ?_, ?_, rfl⟩
  · intro h1 h2
    simp [ProcessorV2.findThemeValue, h1, h2]
  · intro h1 h2
    simp [ProcessorV2.findThemeValue, h1, h2]
  · intro tv h1
    simp [ProcessorV2.findThemeValue, h1]
  · intro h
    exact findThemeValue_arr_resolves values sp vn vt xs h
  · rintro pre s2 post rfl h hf hu
    exact findThemeValue_arr_unresolved_id_errors values sp vn vt s2 post
      hf hu pre h

/-- Witness for C4: an unresolvable UUID-shaped id throws the naming
error; an unresolvable non-id-shaped literal passes through unchanged;
an array mixing a resolvable id and a literal resolves element-wise; an
array whose second element is an unresolvable UUID-shaped id throws the
error naming that element. -/
theorem c4_witness :
    ProcessorV2.findThemeValue
      (StyleVal.s "00000000-1111-2222-3333-444444444444") [] "color"
      "Primary" "button" =
      Except.error (findThemeValueError
        "00000000-1111-2222-3333-444444444444" "color" "Primary" "button") ∧
    ProcessorV2.findThemeValue (StyleVal.s "uppercase") [] "textTransform"
      "Primary" "button" = Except.ok (JsVal.str "uppercase") ∧
    ProcessorV2.findThemeValue (StyleVal.arr ["a", "solid"])
      [⟨"a", .color, some "Red", "#FF0000", []⟩] "borderStyle" "Primary"
      "button" =
      Except.ok (JsVal.arr [JsVal.str "#FF0000", JsVal.str "solid"] []) ∧
    ProcessorV2.findThemeValue
      (StyleVal.arr ["solid", "00000000-1111-2222-3333-444444444444"]) []
      "borderStyle" "Primary" "button" =
      Except.error (findThemeValueError
        "00000000-1111-2222-3333-444444444444" "borderStyle" "Primary"
        "button") := by
  refine ⟨?_, ?_, ?_, ?_⟩
  · exact (c4_variant_id_shape_resolution
      "00000000-1111-2222-3333-444444444444" [] "color" "Primary"
      "button" []).1 rfl (by decide)
  · exact (c4_variant_id_shape_resolution "uppercase" [] "textTransform"
      "Primary" "button" []).2.1 rfl (by decide)
  · exact (c4_variant_id_shape_resolution "a"
      [⟨"a", .color, some "Red", "#FF0000", []⟩] "borderStyle" "Primary"
      "button" ["a", "solid"]).2.2.2.1 (by decide)
  · exact (c4_variant_id_shape_resolution "solid" [] "borderStyle"
      "Primary" "button"
      ["solid", "00000000-1111-2222-3333-444444444444"]).2.2.2.2.1
      ["solid"] "00000000-1111-2222-3333-444444444444" [] rfl (by decide)
      rfl (by decide)

/-- C4 counterexample: "uppercase" does NOT match the id-shape pattern,
yet it is not passed through as a literal when some token happens to have
the id "uppercase" — the lookup runs before the shape check, so the
variant entry resolves to that token's value "#F00". -/
theorem c4_counterexample :
    (ConfigV2.themeProcessor
      [⟨"uppercase", .color, some "Red", "#F00", []⟩]
      [⟨.button, "Primary", [("textTransform", StyleVal.s "uppercase")]⟩]).map
      (fun t => themeLookup2 t "buttons" "Primary" "textTransform") =
      Except.ok (some (JsVal.str "#F00")) ∧
    UUID_REGEX_test "uppercase" = false := by
  exact ⟨rfl, rfl⟩

end ITheme
